import Mathlib

/-!
Verification of the goatclaw orchestration core against its
natural-language specification.

The definitions below are shallow embeddings of the Python source:

* `src/goatclaw/core/structs.py`   — enums and dataclasses,
* `src/goatclaw/orchestrator.py`   — ready-set computation, execution loops,
  retry wrapper, retry-delay calculation,
* `src/goatclaw/core/event_bus.py` — priority-queue keys and dispatch,
* `src/goatclaw/agents/base_agent.py` — the handler runtime `BaseAgent.run`,
* `src/goatclaw/agents/security_agent.py` — the token-bucket rate limiter,
* `src/goatclaw/agents/validation_agent.py` — custom-expression validation,
* `src/goatclaw/worker.py`         — the distributed worker's task processing.

Python floats are modelled as rationals (`ℚ`), Python `datetime` values as
rational timestamps in seconds, and fallible code as `Except`.
-/

namespace Goatclaw

/-- `TaskStatus` enum from `core/structs.py` (lines 29-40). -/
inductive TaskStatus
  | pending | queued | running | success | retry | failed
  | cancelled | escalated | paused | timeout
deriving DecidableEq, Repr

/-- `PermissionScope` enum from `core/structs.py` (lines 77-86). -/
inductive PermissionScope
  | read | write | execute | delete | admin | network | secret | database
deriving DecidableEq, Repr

/-- String `.value` of a `PermissionScope`, as in the Python enum. -/
def PermissionScope.value : PermissionScope → String
  | .read => "read"
  | .write => "write"
  | .execute => "execute"
  | .delete => "delete"
  | .admin => "admin"
  | .network => "network"
  | .secret => "secret"
  | .database => "database"

/-- `RetryStrategy` enum from `core/structs.py` (lines 99-105). -/
inductive RetryStrategy
  | exponentialBackoff | linear | fixed | fibonacci | adaptive
deriving DecidableEq, Repr

/-- `RetryConfig` dataclass from `core/structs.py` (lines 146-155).
Floats are modelled as rationals. -/
structure RetryConfig where
  maxRetries : Nat := 3
  strategy : RetryStrategy := .exponentialBackoff
  initialDelaySeconds : ℚ := 1
  maxDelaySeconds : ℚ := 60
  backoffMultiplier : ℚ := 2
  jitter : Bool := true
deriving DecidableEq, Repr

/-! ### Retry delay (`Orchestrator._calculate_retry_delay`, orchestrator.py 624-652)

The fibonacci branch of the source builds the list `fib = [1, 1]`, appends
`fib[-1] + fib[-2]` `attempt` times, and returns
`initial * fib[min(attempt, len(fib) - 1)]`.  `pyFibListBuild` is that list
and `pyFibIndex` that index computation. -/

/-- The list `fib` built by the loop in `_calculate_retry_delay`'s
fibonacci branch after `attempt` iterations. -/
def pyFibListBuild : Nat → List ℚ
  | 0 => [1, 1]
  | n + 1 =>
    let l := pyFibListBuild n
    l ++ [l.getD (l.length - 1) 0 + l.getD (l.length - 2) 0]

/-- `fib[min(attempt, len(fib) - 1)]` from the fibonacci branch. -/
def pyFibIndex (attempt : Nat) : ℚ :=
  let l := pyFibListBuild attempt
  l.getD (min attempt (l.length - 1)) 0

/-- `Orchestrator._calculate_retry_delay` (orchestrator.py lines 624-652).
`r` models the value of `random.random()` (a rational in `[0, 1)`) drawn in
the jitter branch; it is unused on all other paths. -/
def calculateRetryDelay (config : RetryConfig) (attempt : Nat) (r : ℚ) : ℚ :=
  match config.strategy with
  | .fixed => config.initialDelaySeconds
  | .linear => config.initialDelaySeconds * ((attempt : ℚ) + 1)
  | .exponentialBackoff =>
    let delay := config.initialDelaySeconds * config.backoffMultiplier ^ attempt
    let delay := min delay config.maxDelaySeconds
    if config.jitter then delay * (1/2 + r) else delay
  | .fibonacci => config.initialDelaySeconds * pyFibIndex attempt
  | .adaptive => config.initialDelaySeconds

/-- The specification's fibonacci function: `fib(0) = fib(1) = 1`. -/
def fibSpec : Nat → Nat
  | 0 => 1
  | 1 => 1
  | n + 2 => fibSpec n + fibSpec (n + 1)

theorem pyFibListBuild_eq_map (n : Nat) :
    pyFibListBuild n = (List.range (n + 2)).map (fun i => (fibSpec i : ℚ)) := by
  induction n with
  | zero => rfl
  | succ n ih =>
    have hget : ∀ i, i < n + 2 →
        ((List.range (n + 2)).map (fun i => (fibSpec i : ℚ))).getD i 0 = (fibSpec i : ℚ) := by
      intro i hi
      rw [List.getD_eq_getElem?_getD, List.getElem?_map, List.getElem?_range hi]
      rfl
    simp only [pyFibListBuild, ih, List.length_map, List.length_range]
    rw [show n + 2 - 1 = n + 1 by omega, show n + 2 - 2 = n by omega,
      hget (n + 1) (by omega), hget n (by omega)]
    have hr : List.map (fun i => (fibSpec i : ℚ)) (List.range (n + 1 + 2)) =
        List.map (fun i => (fibSpec i : ℚ)) (List.range (n + 2)) ++ [(fibSpec (n + 2) : ℚ)] := by
      rw [show n + 1 + 2 = (n + 2) + 1 by omega, List.range_succ, List.map_append]
      rfl
    rw [hr]
    congr 1
    simp only [List.cons.injEq, and_true]
    rw [show fibSpec (n + 2) = fibSpec n + fibSpec (n + 1) from rfl]
    push_cast
    ring

theorem pyFibIndex_eq_fibSpec (k : Nat) : pyFibIndex k = (fibSpec k : ℚ) := by
  simp only [pyFibIndex, pyFibListBuild_eq_map, List.length_map, List.length_range]
  rw [show min k (k + 2 - 1) = k by omega]
  rw [List.getD_eq_getElem?_getD, List.getElem?_map, List.getElem?_range (by omega)]
  rfl

/-- C8: For every `RetryConfig` and 0-indexed attempt `k`, the retry delay is
`initial` for FIXED; `initial·(k+1)` for LINEAR; `initial·fib(k)` with
`fib(0)=fib(1)=1` for FIBONACCI; and for EXPONENTIAL_BACKOFF exactly
`min(max_delay, initial·multiplier^k)` when jitter is disabled, and that value
times a factor in `[0.5, 1.5)` when jitter is enabled (for any draw
`r ∈ [0,1)` of the uniform random source). -/
theorem retry_delay_matches_strategy (config : RetryConfig) (k : Nat) (r : ℚ)
    (hr0 : 0 ≤ r) (hr1 : r < 1) :
    (config.strategy = .fixed →
      calculateRetryDelay config k r = config.initialDelaySeconds) ∧
    (config.strategy = .linear →
      calculateRetryDelay config k r = config.initialDelaySeconds * ((k : ℚ) + 1)) ∧
    (config.strategy = .fibonacci →
      calculateRetryDelay config k r = config.initialDelaySeconds * (fibSpec k : ℚ)) ∧
    (config.strategy = .exponentialBackoff → config.jitter = false →
      calculateRetryDelay config k r =
        min config.maxDelaySeconds
          (config.initialDelaySeconds * config.backoffMultiplier ^ k)) ∧
    (config.strategy = .exponentialBackoff → config.jitter = true →
      ∃ factor : ℚ, 1/2 ≤ factor ∧ factor < 3/2 ∧
        calculateRetryDelay config k r =
          min config.maxDelaySeconds
            (config.initialDelaySeconds * config.backoffMultiplier ^ k) * factor) := by
  refine ⟨?_, ?_, ?_, ?_, ?_⟩
  · intro h; simp [calculateRetryDelay, h]
  · intro h; simp [calculateRetryDelay, h]
  · intro h; simp [calculateRetryDelay, h, pyFibIndex_eq_fibSpec]
  · intro h hj; simp [calculateRetryDelay, h, hj, min_comm]
  · intro h hj
    refine ⟨1/2 + r, by linarith, by linarith, ?_⟩
    simp [calculateRetryDelay, h, hj, min_comm]

/-- Witness for `retry_delay_matches_strategy` at a concrete configuration:
fibonacci strategy, `initial = 3`, attempt `k = 5` (so `fib(5) = 8`), jitter
draw `r = 0`. -/
theorem retry_delay_matches_strategy_witness :
    calculateRetryDelay
      { maxRetries := 3, strategy := .fibonacci, initialDelaySeconds := 3,
        maxDelaySeconds := 60, backoffMultiplier := 2, jitter := false } 5 0 = 24 := by
  have h := (retry_delay_matches_strategy
    { maxRetries := 3, strategy := .fibonacci, initialDelaySeconds := 3,
      maxDelaySeconds := 60, backoffMultiplier := 2, jitter := false } 5 0
    (by norm_num) (by norm_num)).2.2.1 rfl
  rw [h]
  norm_num [fibSpec]

/-! ### C1 — dependency gating of RUNNING

`GNode`/`OrchState` model the per-node fields of `TaskNode` that the
scheduling loops read, and the loop-local `completed_nodes` set.
`getReadyNodes` is `Orchestrator._get_ready_nodes` (orchestrator.py 667-688).
`OrchStep` collects the node-status transitions performed by the execution
loops (`_execute_sequential` 211-274, `_execute_parallel` 276-342,
`_execute_distributed` 357-493, `_execute_node` 495-591, and the RETRY mark
in `BaseAgent.run` 240-242):
* `start` — a ready node is set RUNNING (`_execute_node` line 503,
  distributed dispatch line 464);
* `finishSuccess` — an executing node completes: status SUCCESS and its id
  is added to `completed_nodes` (sequential lines 243-244 with 537-538,
  distributed lines 440-442);
* `finishFailure` — an executing node fails: status FAILED (lines 247,
  437, 431, 569);
* `markRetry` — `BaseAgent.run` moves a just-failed node to RETRY
  (base_agent.py 240-242).
Keys of the node mapping are unique (Python dict). -/

structure GNode where
  deps : List String
  status : TaskStatus
  priority : Int
  timeoutSeconds : ℚ := 300
  startedAt : Option ℚ := none
deriving DecidableEq, Repr

/-- Lookup in the ordered node mapping `TaskGraph.nodes` (a Python dict,
hence unique keys; lookup returns the binding if present). -/
def lookupNode : List (String × GNode) → String → Option GNode
  | [], _ => none
  | p :: ps, id => if p.1 = id then some p.2 else lookupNode ps id

/-- One insertion step of the stable descending sort modelling Python's
`ready.sort(key=lambda n: n.priority, reverse=True)`: a new element goes
after every already-placed element of priority `≥` its own. -/
def insertDesc (a : String × GNode) : List (String × GNode) → List (String × GNode)
  | [] => [a]
  | b :: bs => if a.2.priority ≤ b.2.priority then b :: insertDesc a bs else a :: b :: bs

/-- Stable sort by priority descending (Python `list.sort` is stable). -/
def sortByPriorityDesc (l : List (String × GNode)) : List (String × GNode) :=
  l.foldl (fun acc a => insertDesc a acc) []

/-- `Orchestrator._get_ready_nodes`: PENDING nodes whose dependencies are
all in `completed`, sorted by priority descending. -/
def getReadyNodes (nodes : List (String × GNode)) (completed : List String) :
    List (String × GNode) :=
  let ready := nodes.filter (fun p =>
    p.2.status == TaskStatus.pending && p.2.deps.all (fun d => completed.contains d))
  sortByPriorityDesc ready

theorem mem_insertDesc (a x : String × GNode) (l : List (String × GNode)) :
    x ∈ insertDesc a l ↔ x = a ∨ x ∈ l := by
  induction l with
  | nil => simp [insertDesc]
  | cons b bs ih =>
    simp only [insertDesc]
    by_cases h : a.2.priority ≤ b.2.priority
    · rw [if_pos h]
      simp [List.mem_cons, ih]
      tauto
    · rw [if_neg h]
      simp [List.mem_cons]

theorem mem_sortByPriorityDesc_aux (l : List (String × GNode)) :
    ∀ acc x, (x ∈ l.foldl (fun acc a => insertDesc a acc) acc ↔ x ∈ acc ∨ x ∈ l) := by
  induction l with
  | nil => simp
  | cons b bs ih =>
    intro acc x
    simp only [List.foldl_cons]
    rw [ih (insertDesc b acc) x, mem_insertDesc]
    simp [List.mem_cons]
    tauto

theorem mem_sortByPriorityDesc (l : List (String × GNode)) (x : String × GNode) :
    x ∈ sortByPriorityDesc l ↔ x ∈ l := by
  rw [sortByPriorityDesc, mem_sortByPriorityDesc_aux]
  simp

/-- Mutation `node.status = st` on the graph's node mapping: the binding
for `id` gets the new status, all other bindings are unchanged. -/
def setStatus : List (String × GNode) → String → TaskStatus → List (String × GNode)
  | [], _, _ => []
  | p :: ps, id, st =>
    (if p.1 = id then (p.1, { p.2 with status := st }) else p) :: setStatus ps id st

/-- Scheduling-loop state: the graph's nodes plus the loop-local
`completed_nodes` set (kept as a list). -/
structure OrchState where
  nodes : List (String × GNode)
  completed : List String
deriving DecidableEq, Repr

inductive OrchStep : OrchState → OrchState → Prop
  | start (s : OrchState) (id : String) (n : GNode)
      (hready : (id, n) ∈ getReadyNodes s.nodes s.completed) :
      OrchStep s ⟨setStatus s.nodes id .running, s.completed⟩
  | finishSuccess (s : OrchState) (id : String) (n : GNode)
      (hn : lookupNode s.nodes id = some n)
      (hst : n.status = .running ∨ n.status = .retry) :
      OrchStep s ⟨setStatus s.nodes id .success, s.completed ++ [id]⟩
  | finishFailure (s : OrchState) (id : String) (n : GNode)
      (hn : lookupNode s.nodes id = some n)
      (hst : n.status = .running ∨ n.status = .retry) :
      OrchStep s ⟨setStatus s.nodes id .failed, s.completed⟩
  | markRetry (s : OrchState) (id : String) (n : GNode)
      (hn : lookupNode s.nodes id = some n)
      (hst : n.status = .failed) :
      OrchStep s ⟨setStatus s.nodes id .retry, s.completed⟩

/-- Each `_execute_*` loop starts with `completed_nodes = set()`; the node
mapping is a Python dict, so its keys are unique. -/
def OrchInit (s : OrchState) : Prop :=
  s.completed = [] ∧ (s.nodes.map Prod.fst).Nodup

def OrchReachable (s : OrchState) : Prop :=
  ∃ s0, OrchInit s0 ∧ Relation.ReflTransGen OrchStep s0 s

/-- Inductive invariant: every id in `completed_nodes` names a node whose
status is SUCCESS, and node keys stay unique. -/
def OrchInv (s : OrchState) : Prop :=
  (s.nodes.map Prod.fst).Nodup ∧
  ∀ id ∈ s.completed, ∃ n, lookupNode s.nodes id = some n ∧ n.status = .success

theorem lookupNode_setStatus (nodes : List (String × GNode)) (id id2 : String)
    (st : TaskStatus) :
    lookupNode (setStatus nodes id st) id2 =
      if id2 = id then (lookupNode nodes id2).map (fun n => { n with status := st })
      else lookupNode nodes id2 := by
  induction nodes with
  | nil => simp [lookupNode, setStatus]
  | cons p ps ih =>
    simp only [setStatus, lookupNode]
    by_cases h1 : p.1 = id <;> by_cases h2 : p.1 = id2
    · have hii : id2 = id := h2.symm.trans h1
      simp [lookupNode, h1, h2, hii]
    · have hii : ¬ id2 = id := fun h => h2 (h1.trans h.symm)
      have hii2 : ¬ id = id2 := fun h => hii h.symm
      simp [lookupNode, h1, h2, hii, hii2, ih]
    · have hii : ¬ id2 = id := fun h => h1 (h2.trans h)
      simp [lookupNode, h1, h2, hii]
    · simp [lookupNode, h1, h2, ih]

theorem setStatus_keys (nodes : List (String × GNode)) (id : String)
    (st : TaskStatus) :
    (setStatus nodes id st).map Prod.fst = nodes.map Prod.fst := by
  induction nodes with
  | nil => rfl
  | cons p ps ih =>
    simp only [setStatus, List.map_cons]
    by_cases h : p.1 = id <;> simp [h, ih]

theorem lookupNode_of_mem_nodup (nodes : List (String × GNode)) (id : String)
    (n : GNode) (hnd : (nodes.map Prod.fst).Nodup) (hm : (id, n) ∈ nodes) :
    lookupNode nodes id = some n := by
  induction nodes with
  | nil => cases hm
  | cons p ps ih =>
    simp only [List.map_cons, List.nodup_cons] at hnd
    rcases List.mem_cons.mp hm with h | h
    · subst h; simp [lookupNode]
    · have hne : ¬ p.1 = id := by
        intro he
        exact hnd.1 (he ▸ (List.mem_map.mpr ⟨(id, n), h, rfl⟩))
      simp only [lookupNode, hne, if_false]
      exact ih hnd.2 h

theorem mem_getReadyNodes (nodes : List (String × GNode)) (completed : List String)
    (id : String) (n : GNode) (hm : (id, n) ∈ getReadyNodes nodes completed) :
    (id, n) ∈ nodes ∧ n.status = .pending ∧ ∀ d ∈ n.deps, d ∈ completed := by
  have hf : (id, n) ∈ nodes.filter (fun p =>
      p.2.status == TaskStatus.pending && p.2.deps.all (fun d => completed.contains d)) := by
    have := hm
    simp only [getReadyNodes] at this
    exact (mem_sortByPriorityDesc _ _).mp this
  have := List.mem_filter.mp hf
  refine ⟨this.1, ?_, ?_⟩
  · have h := this.2
    simp only [Bool.and_eq_true, beq_iff_eq] at h
    exact h.1
  · have h := this.2
    simp only [Bool.and_eq_true, List.all_eq_true] at h
    intro d hd
    exact List.elem_iff.mp (h.2 d hd)

theorem mem_getReadyNodes_of_filter (nodes : List (String × GNode))
    (completed : List String) (id : String) (n : GNode)
    (h : (id, n) ∈ nodes.filter (fun p =>
      p.2.status == TaskStatus.pending && p.2.deps.all (fun d => completed.contains d))) :
    (id, n) ∈ getReadyNodes nodes completed := by
  simp only [getReadyNodes]
  exact (mem_sortByPriorityDesc _ _).mpr h

theorem orchStep_preserves_inv (s s' : OrchState) (hstep : OrchStep s s')
    (hinv : OrchInv s) : OrchInv s' := by
  obtain ⟨hnd, hcs⟩ := hinv
  cases hstep with
  | start id n hready =>
    refine ⟨by simpa [setStatus_keys] using hnd, ?_⟩
    intro c hc
    obtain ⟨m, hm, hms⟩ := hcs c hc
    have hcne : c ≠ id := by
      intro he
      obtain ⟨hmem, hpend, _⟩ := mem_getReadyNodes _ _ _ _ hready
      have hl := lookupNode_of_mem_nodup _ _ _ hnd hmem
      rw [← he] at hl
      rw [hl] at hm
      cases hm
      rw [hms] at hpend
      cases hpend
    refine ⟨m, ?_, hms⟩
    rw [lookupNode_setStatus, if_neg hcne]
    exact hm
  | finishSuccess id n hn hst =>
    refine ⟨by simpa [setStatus_keys] using hnd, ?_⟩
    intro c hc
    rcases List.mem_append.mp hc with hc | hc
    · obtain ⟨m, hm, hms⟩ := hcs c hc
      have hcne : c ≠ id := by
        intro he
        rw [he, hn] at hm
        cases hm
        rcases hst with h | h <;> rw [hms] at h <;> cases h
      refine ⟨m, ?_, hms⟩
      rw [lookupNode_setStatus, if_neg hcne]
      exact hm
    · have hceq : c = id := by simpa using hc
      subst hceq
      refine ⟨{ n with status := .success }, ?_, rfl⟩
      rw [lookupNode_setStatus, if_pos rfl, hn]
      rfl
  | finishFailure id n hn hst =>
    refine ⟨by simpa [setStatus_keys] using hnd, ?_⟩
    intro c hc
    obtain ⟨m, hm, hms⟩ := hcs c hc
    have hcne : c ≠ id := by
      intro he
      rw [he, hn] at hm
      cases hm
      rcases hst with h | h <;> rw [hms] at h <;> cases h
    refine ⟨m, ?_, hms⟩
    rw [lookupNode_setStatus, if_neg hcne]
    exact hm
  | markRetry id n hn hst =>
    refine ⟨by simpa [setStatus_keys] using hnd, ?_⟩
    intro c hc
    obtain ⟨m, hm, hms⟩ := hcs c hc
    have hcne : c ≠ id := by
      intro he
      rw [he, hn] at hm
      cases hm
      rw [hms] at hst
      cases hst
    refine ⟨m, ?_, hms⟩
    rw [lookupNode_setStatus, if_neg hcne]
    exact hm

theorem orchReachable_inv (s : OrchState) (h : OrchReachable s) : OrchInv s := by
  obtain ⟨s0, ⟨hc0, hnd0⟩, hsteps⟩ := h
  induction hsteps with
  | refl => exact ⟨hnd0, by simp [hc0]⟩
  | tail hst hlast ih => exact orchStep_preserves_inv _ _ hlast ih

/-- C1: in every execution mode, a node's status is set to RUNNING only
when every id in its `dependencies` list already has status SUCCESS.
Formally: along any reachable scheduling-loop state, if a step changes some
node's status to RUNNING (only the `start` step can), then every dependency
of that node maps to a node with status SUCCESS in the pre-state. -/
theorem running_requires_deps_success
    (s s' : OrchState) (hreach : OrchReachable s) (hstep : OrchStep s s')
    (id : String) (n : GNode) (hn : lookupNode s.nodes id = some n)
    (hnot : n.status ≠ .running)
    (n' : GNode) (hn' : lookupNode s'.nodes id = some n')
    (hrun : n'.status = .running) :
    ∀ d ∈ n.deps, ∃ m, lookupNode s.nodes d = some m ∧ m.status = .success := by
  obtain ⟨hnd, hcs⟩ := orchReachable_inv s hreach
  cases hstep with
  | start id0 n0 hready =>
    by_cases hid : id = id0
    · subst hid
      obtain ⟨hmem, hpend, hdeps⟩ := mem_getReadyNodes _ _ _ _ hready
      have hl := lookupNode_of_mem_nodup _ _ _ hnd hmem
      rw [hl] at hn
      cases hn
      intro d hd
      exact hcs d (hdeps d hd)
    · rw [lookupNode_setStatus, if_neg hid, hn] at hn'
      cases hn'
      exact absurd hrun hnot
  | finishSuccess id0 n0 hn0 hst =>
    by_cases hid : id = id0
    · subst hid
      rw [lookupNode_setStatus, if_pos rfl, hn] at hn'
      cases hn'
      cases hrun
    · rw [lookupNode_setStatus, if_neg hid, hn] at hn'
      cases hn'
      exact absurd hrun hnot
  | finishFailure id0 n0 hn0 hst =>
    by_cases hid : id = id0
    · subst hid
      rw [lookupNode_setStatus, if_pos rfl, hn] at hn'
      cases hn'
      cases hrun
    · rw [lookupNode_setStatus, if_neg hid, hn] at hn'
      cases hn'
      exact absurd hrun hnot
  | markRetry id0 n0 hn0 hst =>
    by_cases hid : id = id0
    · subst hid
      rw [lookupNode_setStatus, if_pos rfl, hn] at hn'
      cases hn'
      cases hrun
    · rw [lookupNode_setStatus, if_neg hid, hn] at hn'
      cases hn'
      exact absurd hrun hnot

/-- Witness for `running_requires_deps_success` on a concrete two-node graph
`a → b`: after `a` runs and succeeds, the step that sets `b` RUNNING finds
dependency `a` with status SUCCESS. -/
theorem running_requires_deps_success_witness :
    ∃ m, lookupNode [("a", ⟨[], TaskStatus.success, 0, 300, none⟩), ("b", ⟨["a"], TaskStatus.pending, 0, 300, none⟩)]
        "a" = some m ∧ m.status = .success := by
  have hreach : OrchReachable
      ⟨[("a", ⟨[], TaskStatus.success, 0, 300, none⟩), ("b", ⟨["a"], TaskStatus.pending, 0, 300, none⟩)], ["a"]⟩ := by
    have hchain := Relation.ReflTransGen.head
      (OrchStep.start ⟨[("a", ⟨[], TaskStatus.pending, 0, 300, none⟩),
          ("b", ⟨["a"], TaskStatus.pending, 0, 300, none⟩)], []⟩ "a" ⟨[], TaskStatus.pending, 0, 300, none⟩
        (mem_getReadyNodes_of_filter _ _ _ _ (by decide)))
      (Relation.ReflTransGen.single
        (OrchStep.finishSuccess _ "a" ⟨[], TaskStatus.running, 0, 300, none⟩ (by decide) (Or.inl rfl)))
    have he : (⟨setStatus (setStatus [("a", ⟨[], TaskStatus.pending, 0, 300, none⟩),
          ("b", ⟨["a"], TaskStatus.pending, 0, 300, none⟩)] "a" .running) "a" .success,
        [] ++ ["a"]⟩ : OrchState) =
        ⟨[("a", ⟨[], TaskStatus.success, 0, 300, none⟩), ("b", ⟨["a"], TaskStatus.pending, 0, 300, none⟩)], ["a"]⟩ := by
      decide
    exact ⟨_, ⟨rfl, by decide⟩, he ▸ hchain⟩
  have hstep : OrchStep
      ⟨[("a", ⟨[], TaskStatus.success, 0, 300, none⟩), ("b", ⟨["a"], TaskStatus.pending, 0, 300, none⟩)], ["a"]⟩
      ⟨setStatus [("a", ⟨[], TaskStatus.success, 0, 300, none⟩), ("b", ⟨["a"], TaskStatus.pending, 0, 300, none⟩)]
        "b" .running, ["a"]⟩ :=
    OrchStep.start _ "b" ⟨["a"], TaskStatus.pending, 0, 300, none⟩
      (mem_getReadyNodes_of_filter _ _ _ _ (by decide))
  exact running_requires_deps_success _ _ hreach hstep "b"
    ⟨["a"], TaskStatus.pending, 0, 300, none⟩ (by decide) (by decide)
    ⟨["a"], TaskStatus.running, 0, 300, none⟩ (by decide) rfl "a" (by decide)

/-! ### C2 — event-bus priority-queue delivery order

`EventBus.publish` (event_bus.py 112-161) inserts
`(-event.priority, self._event_counter, event)` into an
`asyncio.PriorityQueue`, with `_event_counter` incremented before every put
(lines 153-154, 157-158, 248-249, 285-286), and `_process_events`
(lines 200-219) repeatedly removes the entry with the smallest tuple key.
`QEntry` is one queue entry, `qkeyLe`/`qkeyLt` the lexicographic order on
the tuple `(-priority, counter)`, `popMinQueue` one dequeue of the min-heap,
and `drainQueue` the dequeue order of a queue with no interleaved puts. -/

structure QEntry where
  priority : Int
  counter : Nat
  eventId : String
deriving DecidableEq, Repr

/-- `(-a.priority, a.counter) ≤ (-b.priority, b.counter)` lexicographically,
the order by which `asyncio.PriorityQueue` serves entries. -/
def qkeyLe (a b : QEntry) : Prop :=
  -a.priority < -b.priority ∨ (-a.priority = -b.priority ∧ a.counter ≤ b.counter)

def qkeyLt (a b : QEntry) : Prop :=
  -a.priority < -b.priority ∨ (-a.priority = -b.priority ∧ a.counter < b.counter)

instance (a b : QEntry) : Decidable (qkeyLe a b) := by unfold qkeyLe; infer_instance

instance (a b : QEntry) : Decidable (qkeyLt a b) := by unfold qkeyLt; infer_instance

/-- The minimum-key entry among `e :: es` (ties keep the earlier entry). -/
def findMinEntry (e : QEntry) : List QEntry → QEntry
  | [] => e
  | x :: xs => if qkeyLe e x then findMinEntry e xs else findMinEntry x xs

/-- One `get` on the priority queue: remove the entry with the smallest
`(-priority, counter)` key. -/
def popMinQueue : List QEntry → Option (QEntry × List QEntry)
  | [] => none
  | e :: es =>
    let m := findMinEntry e es
    some (m, (e :: es).erase m)

def drainQueueFuel : Nat → List QEntry → List QEntry
  | 0, _ => []
  | fuel + 1, q =>
    match popMinQueue q with
    | none => []
    | some (m, rest) => m :: drainQueueFuel fuel rest

/-- The order in which `_process_events` dequeues the current queue contents
when no further event is enqueued. -/
def drainQueue (q : List QEntry) : List QEntry :=
  drainQueueFuel q.length q

theorem qkeyLe_total (a b : QEntry) : qkeyLe a b ∨ qkeyLe b a := by
  unfold qkeyLe
  omega

theorem qkeyLe_trans (a b c : QEntry) (h1 : qkeyLe a b) (h2 : qkeyLe b c) :
    qkeyLe a c := by
  unfold qkeyLe at *
  omega

theorem findMinEntry_mem (es : List QEntry) : ∀ e, findMinEntry e es ∈ e :: es := by
  induction es with
  | nil => intro e; simp [findMinEntry]
  | cons x xs ih =>
    intro e
    simp only [findMinEntry]
    by_cases h : qkeyLe e x
    · rw [if_pos h]
      rcases List.mem_cons.mp (ih e) with h2 | h2
      · simp [h2]
      · simp [List.mem_cons, h2]
    · rw [if_neg h]
      rcases List.mem_cons.mp (ih x) with h2 | h2
      · simp [h2]
      · simp [List.mem_cons, h2]

theorem findMinEntry_le (es : List QEntry) :
    ∀ e, ∀ y ∈ e :: es, qkeyLe (findMinEntry e es) y := by
  induction es with
  | nil =>
    intro e y hy
    simp only [List.mem_singleton] at hy
    subst hy
    simp [findMinEntry, qkeyLe]
  | cons x xs ih =>
    intro e y hy
    simp only [findMinEntry]
    by_cases h : qkeyLe e x
    · rw [if_pos h]
      rcases List.mem_cons.mp hy with h2 | h2
      · exact h2 ▸ ih e e (List.mem_cons_self e xs)
      · rcases List.mem_cons.mp h2 with h3 | h3
        · exact h3 ▸ qkeyLe_trans _ _ _ (ih e e (List.mem_cons_self e xs)) h
        · exact ih e y (List.mem_cons.mpr (Or.inr h3))
    · rw [if_neg h]
      have hxe : qkeyLe x e := (qkeyLe_total e x).resolve_left h
      rcases List.mem_cons.mp hy with h2 | h2
      · exact h2 ▸ qkeyLe_trans _ _ _ (ih x x (List.mem_cons_self x xs)) hxe
      · exact ih x y h2

theorem popMinQueue_some (q : List QEntry) (m : QEntry) (rest : List QEntry)
    (h : popMinQueue q = some (m, rest)) :
    m ∈ q ∧ rest = q.erase m ∧ (∀ y ∈ q, qkeyLe m y) := by
  match q with
  | [] => cases h
  | e :: es =>
    simp only [popMinQueue, Option.some.injEq, Prod.mk.injEq] at h
    obtain ⟨hm, hrest⟩ := h
    subst hm
    subst hrest
    exact ⟨findMinEntry_mem es e, rfl, findMinEntry_le es e⟩

theorem drainQueueFuel_perm (fuel : Nat) (q : List QEntry)
    (hlen : q.length ≤ fuel) : List.Perm (drainQueueFuel fuel q) q := by
  induction fuel generalizing q with
  | zero =>
    have : q = [] := List.length_eq_zero.mp (Nat.le_zero.mp hlen)
    subst this
    simp [drainQueueFuel]
  | succ fuel ih =>
    match hq : popMinQueue q with
    | none =>
      match q with
      | [] => simp [drainQueueFuel, hq]
      | e :: es => simp [popMinQueue] at hq
    | some (m, rest) =>
      obtain ⟨hmem, hrest, _⟩ := popMinQueue_some q m rest hq
      have hlenr : rest.length ≤ fuel := by
        subst hrest
        have := List.length_erase_of_mem hmem
        omega
      have hperm : List.Perm (m :: rest) q := by
        subst hrest
        exact (List.perm_cons_erase hmem).symm
      have hone : drainQueueFuel (fuel + 1) q = m :: drainQueueFuel fuel rest := by
        simp [drainQueueFuel, hq]
      rw [hone]
      exact List.Perm.trans (List.Perm.cons m (ih rest hlenr)) hperm

theorem drainQueueFuel_sorted (fuel : Nat) (q : List QEntry)
    (hlen : q.length ≤ fuel) : (drainQueueFuel fuel q).Pairwise qkeyLe := by
  induction fuel generalizing q with
  | zero => simp [drainQueueFuel]
  | succ fuel ih =>
    match hq : popMinQueue q with
    | none => simp [drainQueueFuel, hq]
    | some (m, rest) =>
      obtain ⟨hmem, hrest, hle⟩ := popMinQueue_some q m rest hq
      have hlenr : rest.length ≤ fuel := by
        subst hrest
        have := List.length_erase_of_mem hmem
        omega
      have hsub : ∀ y ∈ rest, y ∈ q := by
        subst hrest
        intro y hy
        exact List.mem_of_mem_erase hy
      simp only [drainQueueFuel, hq]
      refine List.Pairwise.cons ?_ (ih rest hlenr)
      intro y hy
      have hyq : y ∈ rest := (drainQueueFuel_perm fuel rest hlenr).mem_iff.mp hy
      exact hle y (hsub y hyq)

theorem drainQueue_perm (q : List QEntry) : List.Perm (drainQueue q) q :=
  drainQueueFuel_perm q.length q le_rfl

theorem drainQueue_sorted (q : List QEntry) : (drainQueue q).Pairwise qkeyLe :=
  drainQueueFuel_sorted q.length q le_rfl

/-- C2: for two events both on the bus's priority queue, with no enqueue
between their deliveries, the one with the strictly higher priority is
dispatched first, and among equal priorities the one published earlier
(smaller publish counter) is dispatched first.  `drainQueue q` is the
dispatch order of the queue contents; counters are pairwise distinct because
`_event_counter` increments before every put. -/
theorem event_priority_dispatch_order (q : List QEntry)
    (hnd : (q.map QEntry.counter).Nodup)
    (e1 e2 : QEntry) (h1 : e1 ∈ q) (h2 : e2 ∈ q)
    (hpri : e2.priority < e1.priority ∨
      (e1.priority = e2.priority ∧ e1.counter < e2.counter)) :
    ∃ i j : Nat, i < j ∧ (drainQueue q)[i]? = some e1 ∧ (drainQueue q)[j]? = some e2 := by
  have hlt : qkeyLt e1 e2 := by unfold qkeyLt; omega
  have hperm := drainQueue_perm q
  have hsorted := drainQueue_sorted q
  have h1d : e1 ∈ drainQueue q := hperm.mem_iff.mpr h1
  have h2d : e2 ∈ drainQueue q := hperm.mem_iff.mpr h2
  have hndd : ((drainQueue q).map QEntry.counter).Nodup :=
    (hperm.map QEntry.counter).nodup_iff.mpr hnd
  obtain ⟨i, hi, hie⟩ := List.mem_iff_getElem.mp h1d
  obtain ⟨j, hj, hje⟩ := List.mem_iff_getElem.mp h2d
  have hij : i ≠ j := by
    intro he
    subst he
    rw [hie] at hje
    subst hje
    unfold qkeyLt at hlt
    omega
  have hcounters : ∀ a b : Nat, ∀ (ha : a < (drainQueue q).length)
      (hb : b < (drainQueue q).length), a ≠ b →
      ((drainQueue q)[a]).counter ≠ ((drainQueue q)[b]).counter := by
    intro a b ha hb hab
    have hinj := List.nodup_iff_injective_get.mp hndd
    intro hceq
    apply hab
    have happ : (List.map QEntry.counter (drainQueue q)).get ⟨a, by simpa using ha⟩ =
        (List.map QEntry.counter (drainQueue q)).get ⟨b, by simpa using hb⟩ := by
      simp only [List.get_eq_getElem, List.getElem_map]
      exact hceq
    have hfin := hinj happ
    simpa using congrArg Fin.val hfin
  have hilt : i < j := by
    rcases Nat.lt_trichotomy i j with h | h | h
    · exact h
    · exact absurd h hij
    · exfalso
      have hle := List.pairwise_iff_getElem.mp hsorted j i hj hi h
      rw [hie, hje] at hle
      have hc := hcounters i j hi hj hij
      rw [hie, hje] at hc
      unfold qkeyLe at hle
      unfold qkeyLt at hlt
      omega
  exact ⟨i, j, hilt, by rw [List.getElem?_eq_getElem hi, hie],
    by rw [List.getElem?_eq_getElem hj, hje]⟩

/-- Witness for `event_priority_dispatch_order`: three queued events with
priorities 1, 10, 5 and publish counters 0, 1, 2; the priority-10 event is
dispatched before the priority-5 event. -/
theorem event_priority_dispatch_order_witness :
    ∃ i j : Nat, i < j ∧
      (drainQueue [⟨1, 0, "started"⟩, ⟨10, 1, "completed"⟩, ⟨5, 2, "other"⟩])[i]? =
        some ⟨10, 1, "completed"⟩ ∧
      (drainQueue [⟨1, 0, "started"⟩, ⟨10, 1, "completed"⟩, ⟨5, 2, "other"⟩])[j]? =
        some ⟨5, 2, "other"⟩ :=
  event_priority_dispatch_order
    [⟨1, 0, "started"⟩, ⟨10, 1, "completed"⟩, ⟨5, 2, "other"⟩]
    (by decide) ⟨10, 1, "completed"⟩ ⟨5, 2, "other"⟩
    (by decide) (by decide) (Or.inl (by decide))

/-! ### Handler runtime — `BaseAgent.run` (base_agent.py 146-284)

The model keeps the state `run` reads and writes: the node (status,
retries, error log), the per-agent circuit breaker, and the list of events
published on the bus.  The handler body `self.execute(...)` is opaque and
supplied as an `Except` outcome.  Lifecycle hooks, metrics and billing do
not touch this state; `BaseAgent._get_cache_key` returns `None`
(base_agent.py 501-503), so the cache branch is never taken.
`last_failure_time` is abstracted to whether the breaker cooldown has
elapsed at probe time (`cooldownElapsed`). -/

/-- `CircuitBreakerState` (base_agent.py 38-47); `state` is one of the
source's strings "closed" / "open" / "half-open". -/
structure CircuitBreaker where
  failureCount : Nat := 0
  state : String := "closed"
  failureThreshold : Nat := 5
  timeoutSeconds : Nat := 60
  successThreshold : Nat := 2
  consecutiveSuccesses : Nat := 0
deriving DecidableEq, Repr

/-- `CircuitBreakerState.should_attempt` (base_agent.py 49-64): the decision
plus the updated breaker (OPEN moves to HALF_OPEN once the cooldown
elapsed). -/
def cbShouldAttempt (cb : CircuitBreaker) (cooldownElapsed : Bool) :
    Bool × CircuitBreaker :=
  if cb.state = "closed" then (true, cb)
  else if cb.state = "open" then
    if cooldownElapsed then
      (true, { cb with state := "half-open", consecutiveSuccesses := 0 })
    else (false, cb)
  else (true, cb)

/-- `CircuitBreakerState.record_success` (base_agent.py 66-76);
`max(0, failure_count - 1)` is truncated subtraction on `Nat`. -/
def cbRecordSuccess (cb : CircuitBreaker) : CircuitBreaker :=
  let cb := { cb with consecutiveSuccesses := cb.consecutiveSuccesses + 1 }
  let cb :=
    if cb.state = "half-open" ∧ cb.successThreshold ≤ cb.consecutiveSuccesses then
      { cb with state := "closed", failureCount := 0 }
    else cb
  if cb.state = "closed" then { cb with failureCount := cb.failureCount - 1 } else cb

/-- `CircuitBreakerState.record_failure` (base_agent.py 78-86). -/
def cbRecordFailure (cb : CircuitBreaker) : CircuitBreaker :=
  let cb := { cb with failureCount := cb.failureCount + 1, consecutiveSuccesses := 0 }
  if cb.failureThreshold ≤ cb.failureCount then { cb with state := "open" } else cb

/-- The `TaskNode` fields read and written by the handler runtime
(`core/structs.py` 158-181). -/
structure NodeState where
  nodeId : String
  requiredPermissions : List PermissionScope := []
  status : TaskStatus := .pending
  retries : Nat := 0
  retryConfig : RetryConfig := {}
  errorLog : List String := []
deriving DecidableEq, Repr

/-- An event published on the bus: its `event_type` and `priority`. -/
structure EventOut where
  eventType : String
  priority : Int := 0
deriving DecidableEq, Repr

/-- `BaseAgent._check_permissions` (base_agent.py 489-499): raise
`PermissionError` at the first scope of `node.required_permissions` missing
from `context.allowed_scopes`. -/
def checkPermissions (node : NodeState) (allowedScopes : List PermissionScope)
    (agentType : String) : Except String Unit :=
  match node.requiredPermissions.find? (fun p => !(allowedScopes.contains p)) with
  | some p => .error ("Missing permission: " ++ p.value ++ " for " ++ agentType)
  | none => .ok ()

structure RunResult where
  node : NodeState
  cb : CircuitBreaker
  events : List EventOut
  handlerInvoked : Bool
  result : Except String Unit
deriving Repr

/-- `BaseAgent.run` (base_agent.py 146-284).  In order: disabled check,
circuit-breaker probe, permission check, `task.<id>.started` event, handler
body; on success `record_success`, status SUCCESS, `task.<id>.completed`;
on exception `record_failure`, status FAILED, error-log append,
`task.<id>.failed` at priority 1, then — if `retries < max_retries` —
`retries += 1`, status RETRY and a `task.<id>.retry` event; the exception
re-raises in both cases. -/
def agentRun (enabled : Bool) (cb : CircuitBreaker) (cooldownElapsed : Bool)
    (agentType : String) (node : NodeState) (allowedScopes : List PermissionScope)
    (handlerBody : Except String Unit) : RunResult :=
  if !enabled then
    ⟨node, cb, [], false, .error ("Agent " ++ agentType ++ " is disabled")⟩
  else
    let probe := cbShouldAttempt cb cooldownElapsed
    if probe.1 = false then
      ⟨node, probe.2, [], false, .error ("Circuit breaker is open for " ++ agentType)⟩
    else
      match checkPermissions node allowedScopes agentType with
      | .error e => ⟨node, probe.2, [], false, .error e⟩
      | .ok _ =>
        let startedEv : EventOut := ⟨"task." ++ node.nodeId ++ ".started", 0⟩
        match handlerBody with
        | .ok _ =>
          ⟨{ node with status := TaskStatus.success }, cbRecordSuccess probe.2,
            [startedEv, ⟨"task." ++ node.nodeId ++ ".completed", 0⟩], true, .ok ()⟩
        | .error e =>
          let cb2 := cbRecordFailure probe.2
          let node2 := { node with
            status := TaskStatus.failed
            errorLog := node.errorLog ++ [e] }
          let failedEv : EventOut := ⟨"task." ++ node.nodeId ++ ".failed", 1⟩
          if node2.retries < node2.retryConfig.maxRetries then
            ⟨{ node2 with
                retries := node2.retries + 1
                status := TaskStatus.retry },
              cb2, [startedEv, failedEv, ⟨"task." ++ node.nodeId ++ ".retry", 0⟩],
              true, .error e⟩
          else
            ⟨node2, cb2, [startedEv, failedEv], true, .error e⟩

theorem string_append_right_ne (a b c : String) (h : b ≠ c) : a ++ b ≠ a ++ c := by
  intro he
  apply h
  have hd := congrArg String.data he
  simp only [String.data_append] at hd
  exact String.ext (List.append_cancel_left hd)

/-- The node of the C3 counterexample: `retries = 0`,
`retry_config.max_retries = 3` (the defaults). -/
def c3Node : NodeState := { nodeId := "n1" }

/-- C3 counterexample: the claim asserts that when
`retries < retry_config.max_retries` no `task.<node_id>.failed` event is
emitted, but `BaseAgent.run` publishes the failed event (line 228-237)
before the retry check (line 240), so the retry path emits it too. -/
theorem run_retry_no_failed_event_counterexample :
    ¬ (c3Node.retries < c3Node.retryConfig.maxRetries →
      "task.n1.failed" ∉
        (agentRun true {} false "CodeAgent" c3Node [] (.error "boom")).events.map
          EventOut.eventType) := by
  decide

/-- C3 (amended): when the handler body raises inside `BaseAgent.run` (agent
enabled, breaker allowing the attempt, permissions satisfied), exactly one
`task.<node_id>.failed` event with priority 1 is emitted in BOTH cases; when
`node.retries < node.retry_config.max_retries` the node additionally ends
the call with status RETRY, `retries` incremented by one and a
`task.<node_id>.retry` event; otherwise it ends with status FAILED and no
retry event; in both cases the error propagates to the caller. -/
theorem run_handler_failure_behavior (cb : CircuitBreaker) (cooldownElapsed : Bool)
    (agentType : String) (node : NodeState) (allowedScopes : List PermissionScope)
    (e : String)
    (hprobe : (cbShouldAttempt cb cooldownElapsed).1 = true)
    (hperm : checkPermissions node allowedScopes agentType = .ok ()) :
    (agentRun true cb cooldownElapsed agentType node allowedScopes (.error e)).result
      = .error e ∧
    ((agentRun true cb cooldownElapsed agentType node allowedScopes
        (.error e)).events.map EventOut.eventType).count
      ("task." ++ node.nodeId ++ ".failed") = 1 ∧
    (⟨"task." ++ node.nodeId ++ ".failed", 1⟩ : EventOut) ∈
      (agentRun true cb cooldownElapsed agentType node allowedScopes (.error e)).events ∧
    (node.retries < node.retryConfig.maxRetries →
      (agentRun true cb cooldownElapsed agentType node allowedScopes
        (.error e)).node.status = .retry ∧
      (agentRun true cb cooldownElapsed agentType node allowedScopes
        (.error e)).node.retries = node.retries + 1 ∧
      ("task." ++ node.nodeId ++ ".retry") ∈
        (agentRun true cb cooldownElapsed agentType node allowedScopes
          (.error e)).events.map EventOut.eventType) ∧
    (¬ node.retries < node.retryConfig.maxRetries →
      (agentRun true cb cooldownElapsed agentType node allowedScopes
        (.error e)).node.status = .failed ∧
      ("task." ++ node.nodeId ++ ".retry") ∉
        (agentRun true cb cooldownElapsed agentType node allowedScopes
          (.error e)).events.map EventOut.eventType) := by
  have hne1 : "task." ++ node.nodeId ++ ".started" ≠ "task." ++ node.nodeId ++ ".failed" :=
    string_append_right_ne _ _ _ (by decide)
  have hne2 : "task." ++ node.nodeId ++ ".retry" ≠ "task." ++ node.nodeId ++ ".failed" :=
    string_append_right_ne _ _ _ (by decide)
  have hne3 : "task." ++ node.nodeId ++ ".started" ≠ "task." ++ node.nodeId ++ ".retry" :=
    string_append_right_ne _ _ _ (by decide)
  by_cases hr : node.retries < node.retryConfig.maxRetries
  · have heq : agentRun true cb cooldownElapsed agentType node allowedScopes (.error e) =
        ⟨{ node with
            status := TaskStatus.retry
            retries := node.retries + 1
            errorLog := node.errorLog ++ [e] },
          cbRecordFailure (cbShouldAttempt cb cooldownElapsed).2,
          [⟨"task." ++ node.nodeId ++ ".started", 0⟩,
            ⟨"task." ++ node.nodeId ++ ".failed", 1⟩,
            ⟨"task." ++ node.nodeId ++ ".retry", 0⟩], true, .error e⟩ := by
      simp [agentRun, hprobe, hperm, hr]
    rw [heq]
    refine ⟨rfl, ?_, ?_, fun _ => ⟨rfl, rfl, ?_⟩, fun hc => absurd hr hc⟩
    · simp only [List.map_cons, List.map_nil, List.count_cons, List.count_nil, beq_iff_eq]
      rw [if_neg hne2]
      simp [hne1]
    · simp
    · simp
  · have heq : agentRun true cb cooldownElapsed agentType node allowedScopes (.error e) =
        ⟨{ node with
            status := TaskStatus.failed
            errorLog := node.errorLog ++ [e] },
          cbRecordFailure (cbShouldAttempt cb cooldownElapsed).2,
          [⟨"task." ++ node.nodeId ++ ".started", 0⟩,
            ⟨"task." ++ node.nodeId ++ ".failed", 1⟩], true, .error e⟩ := by
      simp [agentRun, hprobe, hperm, hr]
    rw [heq]
    refine ⟨rfl, ?_, ?_, fun hc => absurd hc hr, fun _ => ⟨rfl, ?_⟩⟩
    · simp only [List.map_cons, List.map_nil, List.count_cons, List.count_nil, beq_iff_eq]
      simp [hne1]
    · simp
    · simp only [List.map_cons, List.map_nil, List.mem_cons, List.not_mem_nil, or_false]
      push_neg
      exact ⟨Ne.symm hne3, fun h => hne2 h⟩

/-- Witness for `run_handler_failure_behavior` at the C3 node. -/
theorem run_handler_failure_behavior_witness :
    (agentRun true {} false "CodeAgent" c3Node [] (.error "boom")).node.status =
      TaskStatus.retry ∧
    (agentRun true {} false "CodeAgent" c3Node [] (.error "boom")).node.retries = 1 := by
  have h := run_handler_failure_behavior {} false "CodeAgent" c3Node [] "boom"
    (by decide) rfl
  obtain ⟨-, -, -, hretry, -⟩ := h
  obtain ⟨h1, h2, -⟩ := hretry (by decide)
  exact ⟨h1, h2⟩

/-! ### C4 — `Orchestrator._execute_with_retry` (orchestrator.py 593-622)

`_execute_with_retry` loops `for attempt in range(max_retries + 1)`, calls
`agent.run`, and on ANY exception with `attempt < max_retries` sets
`node.retries = attempt + 1`, sleeps the computed delay, and retries;
on the last attempt the exception propagates.  `handlerBody attempt` is the
opaque handler body's outcome at each attempt; `fuel` is an upper bound on
the remaining iterations — the wrapper passes `max_retries + 1`, which is
exact, so the fuel-exhausted branch is unreachable. -/

structure RetryLoopResult where
  node : NodeState
  cb : CircuitBreaker
  events : List EventOut
  runCalls : Nat
  handlerInvocations : Nat
  result : Except String Unit
deriving Repr

def executeWithRetryGo (cooldownElapsed : Bool)
    (agentType : String) (allowedScopes : List PermissionScope)
    (handlerBody : Nat → Except String Unit) (maxRetries : Nat) :
    Nat → Nat → NodeState → CircuitBreaker → List EventOut → Nat → Nat →
      RetryLoopResult
  | 0, _, node, cb, acc, calls, invocations =>
    ⟨node, cb, acc, calls, invocations, .error "loop fuel exhausted"⟩
  | fuel + 1, attempt, node, cb, acc, calls, invocations =>
    let r := agentRun true cb cooldownElapsed agentType node allowedScopes
      (handlerBody attempt)
    let invocations := invocations + (if r.handlerInvoked then 1 else 0)
    match r.result with
    | .ok _ => ⟨r.node, r.cb, acc ++ r.events, calls + 1, invocations, .ok ()⟩
    | .error e =>
      if attempt < maxRetries then
        executeWithRetryGo cooldownElapsed agentType allowedScopes handlerBody
          maxRetries fuel (attempt + 1) { r.node with retries := attempt + 1 } r.cb
          (acc ++ r.events) (calls + 1) invocations
      else ⟨r.node, r.cb, acc ++ r.events, calls + 1, invocations, .error e⟩

/-- `Orchestrator._execute_with_retry` over an enabled agent. -/
def executeWithRetry (cb : CircuitBreaker) (cooldownElapsed : Bool)
    (agentType : String) (node : NodeState) (allowedScopes : List PermissionScope)
    (handlerBody : Nat → Except String Unit) : RetryLoopResult :=
  executeWithRetryGo cooldownElapsed agentType allowedScopes handlerBody
    node.retryConfig.maxRetries (node.retryConfig.maxRetries + 1) 0 node cb [] 0 0

/-- The node of the C4 counterexample: requires ADMIN, default
`max_retries = 3`. -/
def c4Node : NodeState := { nodeId := "n2", requiredPermissions := [.admin] }

/-- C4 counterexample: node requires `[ADMIN]`, context grants `[READ]`.
The claim asserts the permission failure is never retried and that one
`security.audit` event with `allowed=false` is emitted; in the code
`_execute_with_retry` retries the `PermissionError` like any other
exception (4 `run` calls for `max_retries = 3`), and the handler-runtime
path emits no `security.audit` event at all. -/
theorem permission_denied_never_retried_counterexample :
    ¬ ((executeWithRetry {} false "CodeAgent" c4Node [.read]
          (fun _ => .ok ())).runCalls = 1 ∧
        "security.audit" ∈ (executeWithRetry {} false "CodeAgent" c4Node [.read]
          (fun _ => .ok ())).events.map EventOut.eventType) := by
  decide

/-- A breaker probe that answered `true` answers `true` again on its own
output, without further change. -/
theorem cbShouldAttempt_stable (cb : CircuitBreaker) (cooldownElapsed : Bool)
    (h : (cbShouldAttempt cb cooldownElapsed).1 = true) :
    cbShouldAttempt (cbShouldAttempt cb cooldownElapsed).2 cooldownElapsed =
      (true, (cbShouldAttempt cb cooldownElapsed).2) := by
  unfold cbShouldAttempt at *
  by_cases h1 : cb.state = "closed"
  · simp [h1]
  · by_cases h2 : cb.state = "open"
    · by_cases h3 : cooldownElapsed
      · simp [h1, h2, h3]
      · simp [h1, h2, h3] at h
    · simp [h1, h2]

/-- The retry loop on a node whose permission check fails, with a breaker
that lets every attempt through: every iteration fails the permission check
again, no handler is invoked and no event is published. -/
theorem executeWithRetryGo_perm_denied (cooldownElapsed : Bool)
    (agentType : String) (allowedScopes : List PermissionScope)
    (handlerBody : Nat → Except String Unit) (maxRetries : Nat) (msg : String) :
    ∀ fuel attempt node cb acc calls invocations,
      maxRetries + 1 - attempt ≤ fuel → attempt ≤ maxRetries →
      checkPermissions node allowedScopes agentType = .error msg →
      cbShouldAttempt cb cooldownElapsed = (true, cb) →
      (executeWithRetryGo cooldownElapsed agentType allowedScopes handlerBody
          maxRetries fuel attempt node cb acc calls invocations).result = .error msg ∧
      (executeWithRetryGo cooldownElapsed agentType allowedScopes handlerBody
          maxRetries fuel attempt node cb acc calls invocations).runCalls =
        calls + (maxRetries + 1 - attempt) ∧
      (executeWithRetryGo cooldownElapsed agentType allowedScopes handlerBody
          maxRetries fuel attempt node cb acc calls invocations).handlerInvocations =
        invocations ∧
      (executeWithRetryGo cooldownElapsed agentType allowedScopes handlerBody
          maxRetries fuel attempt node cb acc calls invocations).events = acc := by
  intro fuel
  induction fuel with
  | zero =>
    intro attempt node cb acc calls invocations hfuel hatt hperm hstable
    omega
  | succ fuel ih =>
    intro attempt node cb acc calls invocations hfuel hatt hperm hstable
    have hrun : agentRun true cb cooldownElapsed agentType node allowedScopes
        (handlerBody attempt) = ⟨node, cb, [], false, .error msg⟩ := by
      have hp1 : (cbShouldAttempt cb cooldownElapsed).1 = true := by rw [hstable]
      have hp2 : (cbShouldAttempt cb cooldownElapsed).2 = cb := by rw [hstable]
      simp [agentRun, hp1, hp2, hperm]
    by_cases hlt : attempt < maxRetries
    · have hrec := ih (attempt + 1) { node with retries := attempt + 1 } cb acc
        (calls + 1) invocations (by omega) (by omega) hperm hstable
      have hunfold : executeWithRetryGo cooldownElapsed agentType allowedScopes
          handlerBody maxRetries (fuel + 1) attempt node cb acc calls invocations =
          executeWithRetryGo cooldownElapsed agentType allowedScopes handlerBody
            maxRetries fuel (attempt + 1) { node with retries := attempt + 1 } cb
            acc (calls + 1) invocations := by
        simp [executeWithRetryGo, hrun, if_pos hlt]
      rw [hunfold]
      exact ⟨hrec.1, hrec.2.1.trans (by omega), hrec.2.2.1, hrec.2.2.2⟩
    · have hunfold : executeWithRetryGo cooldownElapsed agentType allowedScopes
          handlerBody maxRetries (fuel + 1) attempt node cb acc calls invocations =
          ⟨node, cb, acc, calls + 1, invocations, .error msg⟩ := by
        simp [executeWithRetryGo, hrun, if_neg hlt]
      rw [hunfold]
      exact ⟨rfl, by simp; omega, rfl, rfl⟩

/-- C4 (amended): when some scope in `node.required_permissions` is absent
from `context.allowed_scopes` (agent enabled, breaker allowing), every
attempt of `_execute_with_retry` fails the permission check before the
handler body runs — the handler body is never invoked — but the failure IS
retried like any exception (`max_retries + 1` `run` calls in total), no
event at all — in particular no `security.audit` event — is published on
this path, and the permission error propagates to the caller. -/
theorem permission_denied_behavior (cb : CircuitBreaker) (cooldownElapsed : Bool)
    (agentType : String) (node : NodeState) (allowedScopes : List PermissionScope)
    (handlerBody : Nat → Except String Unit)
    (hmiss : ∃ p ∈ node.requiredPermissions, p ∉ allowedScopes)
    (hprobe : (cbShouldAttempt cb cooldownElapsed).1 = true) :
    ∃ p ∈ node.requiredPermissions, p ∉ allowedScopes ∧
      (executeWithRetry cb cooldownElapsed agentType node allowedScopes
          handlerBody).result =
        .error ("Missing permission: " ++ p.value ++ " for " ++ agentType) ∧
      (executeWithRetry cb cooldownElapsed agentType node allowedScopes
          handlerBody).handlerInvocations = 0 ∧
      (executeWithRetry cb cooldownElapsed agentType node allowedScopes
          handlerBody).runCalls = node.retryConfig.maxRetries + 1 ∧
      (executeWithRetry cb cooldownElapsed agentType node allowedScopes
          handlerBody).events = [] ∧
      "security.audit" ∉ (executeWithRetry cb cooldownElapsed agentType node
          allowedScopes handlerBody).events.map EventOut.eventType := by
  have hsome : (node.requiredPermissions.find?
      (fun p => !(allowedScopes.contains p))).isSome := by
    rw [List.find?_isSome]
    obtain ⟨p, hp, hnp⟩ := hmiss
    exact ⟨p, hp, by simpa using hnp⟩
  obtain ⟨q, hq⟩ := Option.isSome_iff_exists.mp hsome
  have hqmem : q ∈ node.requiredPermissions := List.mem_of_find?_eq_some hq
  have hqmiss : q ∉ allowedScopes := by
    have := List.find?_some hq
    simpa using this
  have hperm : checkPermissions node allowedScopes agentType =
      .error ("Missing permission: " ++ q.value ++ " for " ++ agentType) := by
    unfold checkPermissions
    rw [hq]
  have hstable : cbShouldAttempt cb cooldownElapsed = (true, cb) ∨
      ∃ cb2, cbShouldAttempt cb cooldownElapsed = (true, cb2) ∧
        cbShouldAttempt cb2 cooldownElapsed = (true, cb2) := by
    by_cases h1 : (cbShouldAttempt cb cooldownElapsed).2 = cb
    · left
      rw [Prod.ext_iff]
      exact ⟨hprobe, h1⟩
    · right
      refine ⟨(cbShouldAttempt cb cooldownElapsed).2, ?_, ?_⟩
      · rw [Prod.ext_iff]
        exact ⟨hprobe, rfl⟩
      · exact cbShouldAttempt_stable cb cooldownElapsed hprobe
  refine ⟨q, hqmem, hqmiss, ?_⟩
  rcases hstable with hst | ⟨cb2, hst1, hst2⟩
  · have h := executeWithRetryGo_perm_denied cooldownElapsed agentType allowedScopes
      handlerBody node.retryConfig.maxRetries _ (node.retryConfig.maxRetries + 1) 0
      node cb [] 0 0 (by omega) (by omega) hperm hst
    simp only [executeWithRetry]
    refine ⟨h.1, h.2.2.1, h.2.1.trans (by omega), h.2.2.2, ?_⟩
    rw [h.2.2.2]
    simp
  · -- the first probe may move OPEN to HALF_OPEN; afterwards the breaker is
    -- stable, so unroll the first iteration by hand
    have hrun : agentRun true cb cooldownElapsed agentType node allowedScopes
        (handlerBody 0) = ⟨node, cb2, [], false,
          .error ("Missing permission: " ++ q.value ++ " for " ++ agentType)⟩ := by
      have hp1 : (cbShouldAttempt cb cooldownElapsed).1 = true := hprobe
      have hp2 : (cbShouldAttempt cb cooldownElapsed).2 = cb2 := by rw [hst1]
      simp [agentRun, hp1, hp2, hperm]
    simp only [executeWithRetry]
    by_cases h0 : 0 < node.retryConfig.maxRetries
    · have h := executeWithRetryGo_perm_denied cooldownElapsed agentType allowedScopes
        handlerBody node.retryConfig.maxRetries _ node.retryConfig.maxRetries 1
        { node with retries := 1 } cb2 [] 1 0 (by omega) (by omega) hperm hst2
      have hunfold : executeWithRetryGo cooldownElapsed agentType allowedScopes
          handlerBody node.retryConfig.maxRetries (node.retryConfig.maxRetries + 1) 0
          node cb [] 0 0 =
          executeWithRetryGo cooldownElapsed agentType allowedScopes handlerBody
            node.retryConfig.maxRetries node.retryConfig.maxRetries 1
            { node with retries := 1 } cb2 [] 1 0 := by
        obtain ⟨m, hm⟩ : ∃ m, node.retryConfig.maxRetries = m + 1 :=
          ⟨node.retryConfig.maxRetries - 1, by omega⟩
        rw [hm]
        simp [executeWithRetryGo, hrun]
      rw [hunfold]
      refine ⟨h.1, h.2.2.1, h.2.1.trans (by omega), h.2.2.2, ?_⟩
      rw [h.2.2.2]
      simp
    · have hmr : node.retryConfig.maxRetries = 0 := by omega
      have hunfold : executeWithRetryGo cooldownElapsed agentType allowedScopes
          handlerBody node.retryConfig.maxRetries (node.retryConfig.maxRetries + 1) 0
          node cb [] 0 0 =
          ⟨node, cb2, [], 1, 0,
            .error ("Missing permission: " ++ q.value ++ " for " ++ agentType)⟩ := by
        rw [hmr]
        simp [executeWithRetryGo, hrun]
      rw [hunfold]
      exact ⟨rfl, rfl, by rw [hmr], rfl, by simp⟩

/-- Witness for `permission_denied_behavior`: the C4 node (requires ADMIN)
against a READ-only scope set. -/
theorem permission_denied_behavior_witness :
    ∃ p ∈ c4Node.requiredPermissions, p ∉ ([.read] : List PermissionScope) ∧
      (executeWithRetry {} false "CodeAgent" c4Node [.read]
          (fun _ => .ok ())).result =
        .error ("Missing permission: " ++ p.value ++ " for " ++ "CodeAgent") ∧
      (executeWithRetry {} false "CodeAgent" c4Node [.read]
          (fun _ => .ok ())).handlerInvocations = 0 ∧
      (executeWithRetry {} false "CodeAgent" c4Node [.read]
          (fun _ => .ok ())).runCalls = c4Node.retryConfig.maxRetries + 1 ∧
      (executeWithRetry {} false "CodeAgent" c4Node [.read]
          (fun _ => .ok ())).events = [] ∧
      "security.audit" ∉ (executeWithRetry {} false "CodeAgent" c4Node
          [.read] (fun _ => .ok ())).events.map EventOut.eventType :=
  permission_denied_behavior {} false "CodeAgent" c4Node [.read] (fun _ => .ok ())
    ⟨.admin, by decide, by decide⟩ (by decide)

/-! ### C10 — `Worker.process_task` (worker.py 100-173)

After decoding the popped payload into a `TaskNode` and finding a
registered agent for its type, the worker builds
`SecurityContext(user_id="distributed_execution", allowed_scopes=[])`
(worker.py line 139), calls `agent.run(node, context)`, and publishes a
`task.completed` event on success or a `task.failed` event when any
exception was raised (lines 147-173). -/

structure WorkerResult where
  runEvents : List EventOut
  published : EventOut
  handlerInvoked : Bool
  runResult : Except String Unit
deriving Repr

def workerProcessTask (cb : CircuitBreaker) (cooldownElapsed : Bool)
    (agentType : String) (node : NodeState)
    (handlerBody : Except String Unit) : WorkerResult :=
  let r := agentRun true cb cooldownElapsed agentType node
    ([] : List PermissionScope) handlerBody
  match r.result with
  | .ok _ => ⟨r.events, ⟨"task.completed", 0⟩, r.handlerInvoked, r.result⟩
  | .error _ => ⟨r.events, ⟨"task.failed", 0⟩, r.handlerInvoked, r.result⟩

/-- C10: every task processed by the distributed Worker whose decoded node
has a non-empty `required_permissions` list fails — the worker reconstructs
the `SecurityContext` with empty `allowed_scopes` — so the handler body is
never invoked, a `task.failed` (never `task.completed`) event is published,
and, whenever the circuit breaker lets the attempt through, the failure is
the permission error for the node's first required scope.  Hence a node
requiring any permission can never succeed on a Worker. -/
theorem worker_required_permissions_always_fail (cb : CircuitBreaker)
    (cooldownElapsed : Bool) (agentType : String) (node : NodeState)
    (handlerBody : Except String Unit)
    (hne : node.requiredPermissions ≠ []) :
    (workerProcessTask cb cooldownElapsed agentType node
      handlerBody).published.eventType = "task.failed" ∧
    (workerProcessTask cb cooldownElapsed agentType node
      handlerBody).handlerInvoked = false ∧
    ((cbShouldAttempt cb cooldownElapsed).1 = true →
      ∃ p, node.requiredPermissions.head? = some p ∧
        (workerProcessTask cb cooldownElapsed agentType node
          handlerBody).runResult =
          .error ("Missing permission: " ++ p.value ++ " for " ++ agentType)) := by
  match hnode : node.requiredPermissions, hne with
  | p :: ps, _ =>
    have hfind : node.requiredPermissions.find?
        (fun x => !(([] : List PermissionScope).contains x)) = some p := by
      rw [hnode]
      rfl
    have hperm : checkPermissions node ([] : List PermissionScope) agentType =
        .error ("Missing permission: " ++ p.value ++ " for " ++ agentType) := by
      unfold checkPermissions
      rw [hfind]
    by_cases hprobe : (cbShouldAttempt cb cooldownElapsed).1 = true
    · have hrun : agentRun true cb cooldownElapsed agentType node
          ([] : List PermissionScope) handlerBody =
          ⟨node, (cbShouldAttempt cb cooldownElapsed).2, [], false,
            .error ("Missing permission: " ++ p.value ++ " for " ++ agentType)⟩ := by
        simp [agentRun, hprobe, hperm]
      refine ⟨?_, ?_, fun _ => ⟨p, rfl, ?_⟩⟩ <;>
        simp [workerProcessTask, hrun]
    · have hfalse : (cbShouldAttempt cb cooldownElapsed).1 = false := by
        simpa using hprobe
      have hrun : agentRun true cb cooldownElapsed agentType node
          ([] : List PermissionScope) handlerBody =
          ⟨node, (cbShouldAttempt cb cooldownElapsed).2, [], false,
            .error ("Circuit breaker is open for " ++ agentType)⟩ := by
        simp [agentRun, hfalse]
      refine ⟨?_, ?_, fun hc => absurd hc hprobe⟩ <;>
        simp [workerProcessTask, hrun]

/-- Witness for `worker_required_permissions_always_fail`: the worker
receives a node requiring ADMIN; the permission check fails before the
handler body and `task.failed` is published. -/
theorem worker_required_permissions_always_fail_witness :
    (workerProcessTask {} false "CodeAgent" c4Node
      (.ok ())).published.eventType = "task.failed" ∧
    (workerProcessTask {} false "CodeAgent" c4Node
      (.ok ())).handlerInvoked = false := by
  have h := worker_required_permissions_always_fail {} false "CodeAgent" c4Node
    (.ok ()) (by decide)
  exact ⟨h.1, h.2.1⟩

/-! ### C5 — `EventBus._dispatch_event` retry / dead-letter (event_bus.py 256-293)

After all matching handlers ran concurrently, the source loops over the
handler results (lines 276-289) and, FOR EACH handler that raised, applies
the retry/dead-letter decision: if `event.retry_count < event.max_retries`
it increments `retry_count` and re-enqueues the event with queue key
`-(event.priority - 1)` (so queue priority `priority - 1`;
`event.priority` itself is never mutated), otherwise it appends the event
to the dead-letter queue.  `raised` lists, per handler in result order,
whether it raised. -/

structure BusEvent where
  eventId : String
  priority : Int
  retryCount : Nat
  maxRetries : Nat
deriving DecidableEq, Repr

structure DispatchResult where
  event : BusEvent
  reenqueuedPriorities : List Int
  deadLettered : List BusEvent
deriving DecidableEq, Repr

def dispatchErrorStep (acc : DispatchResult) (didRaise : Bool) : DispatchResult :=
  if didRaise then
    if acc.event.retryCount < acc.event.maxRetries then
      let ev2 := { acc.event with retryCount := acc.event.retryCount + 1 }
      { acc with
        event := ev2
        reenqueuedPriorities := acc.reenqueuedPriorities ++ [ev2.priority - 1] }
    else
      { acc with deadLettered := acc.deadLettered ++ [acc.event] }
  else acc

def dispatchAfterHandlers (ev : BusEvent) (raised : List Bool) : DispatchResult :=
  raised.foldl dispatchErrorStep ⟨ev, [], []⟩

/-- C5 counterexample: an event with `retry_count = 0`, `max_retries = 3`
whose dispatch had TWO raising handlers.  The claim asserts the event is
re-enqueued exactly once with `retry_count` incremented by one; the loop in
`_dispatch_event` applies the decision once per raising handler, so the
event is re-enqueued twice and `retry_count` becomes 2. -/
theorem dispatch_reenqueue_once_counterexample :
    ¬ ((dispatchAfterHandlers ⟨"e1", 5, 0, 3⟩ [true, true]).reenqueuedPriorities.length
        = 1 ∧
      (dispatchAfterHandlers ⟨"e1", 5, 0, 3⟩ [true, true]).event.retryCount = 0 + 1) := by
  decide

theorem dispatch_foldl_no_raise (l : List Bool) (acc : DispatchResult)
    (h : ∀ b ∈ l, b = false) : l.foldl dispatchErrorStep acc = acc := by
  induction l generalizing acc with
  | nil => rfl
  | cons b bs ih =>
    have hb : b = false := h b (List.mem_cons_self b bs)
    subst hb
    simp only [List.foldl_cons, dispatchErrorStep, Bool.false_eq_true, if_false]
    exact ih acc (fun x hx => h x (List.mem_cons_of_mem _ hx))

/-- C5 (amended): `_dispatch_event` applies the retry/dead-letter decision
once per raising handler, in result order.  In particular, when EXACTLY ONE
subscribed handler raised: if `retry_count < max_retries` the event is
re-enqueued exactly once at queue priority `priority − 1` with
`retry_count` incremented by one and nothing dead-lettered; otherwise it is
moved to the dead-letter queue once and not re-enqueued. -/
theorem dispatch_single_failure_behavior (ev : BusEvent) (pre post : List Bool)
    (hpre : ∀ b ∈ pre, b = false) (hpost : ∀ b ∈ post, b = false) :
    (ev.retryCount < ev.maxRetries →
      dispatchAfterHandlers ev (pre ++ true :: post) =
        ⟨{ ev with retryCount := ev.retryCount + 1 }, [ev.priority - 1], []⟩) ∧
    (¬ ev.retryCount < ev.maxRetries →
      dispatchAfterHandlers ev (pre ++ true :: post) =
        ⟨ev, [], [ev]⟩) := by
  have hsplit : dispatchAfterHandlers ev (pre ++ true :: post) =
      post.foldl dispatchErrorStep (dispatchErrorStep ⟨ev, [], []⟩ true) := by
    unfold dispatchAfterHandlers
    rw [List.foldl_append, dispatch_foldl_no_raise pre _ hpre, List.foldl_cons]
  constructor
  · intro hlt
    rw [hsplit]
    have hstep : dispatchErrorStep ⟨ev, [], []⟩ true =
        ⟨{ ev with retryCount := ev.retryCount + 1 }, [ev.priority - 1], []⟩ := by
      simp [dispatchErrorStep, hlt]
    rw [hstep, dispatch_foldl_no_raise post _ hpost]
  · intro hge
    rw [hsplit]
    have hstep : dispatchErrorStep ⟨ev, [], []⟩ true = ⟨ev, [], [ev]⟩ := by
      simp [dispatchErrorStep, hge]
    rw [hstep, dispatch_foldl_no_raise post _ hpost]

/-- Witness for `dispatch_single_failure_behavior`: three handlers, only the
middle one raised, `retry_count = 1 < max_retries = 3`, priority 5. -/
theorem dispatch_single_failure_behavior_witness :
    dispatchAfterHandlers ⟨"e2", 5, 1, 3⟩ [false, true, false] =
      ⟨⟨"e2", 5, 2, 3⟩, [4], []⟩ :=
  (dispatch_single_failure_behavior ⟨"e2", 5, 1, 3⟩ [false] [false]
    (by decide) (by decide)).1 (by decide)

/-! ### C7 — token-bucket rate limiter
(`SecurityAgent._check_rate_limit`, security_agent.py 136-205)

Buckets and threat scores are Python dicts keyed by the identifier; floats
are rationals, `datetime.utcnow()` a rational timestamp (seconds).  The
threat-score dict is a `defaultdict(float)` (missing key reads as 0). -/

def alistGet {α : Type} : List (String × α) → String → Option α
  | [], _ => none
  | p :: ps, k => if p.1 = k then some p.2 else alistGet ps k

def alistSet {α : Type} : List (String × α) → String → α → List (String × α)
  | [], k, v => [(k, v)]
  | p :: ps, k, v => if p.1 = k then (k, v) :: ps else p :: alistSet ps k v

/-- Python `int(x)` on a float: truncation toward zero (`Int.div` of the
reduced numerator by the denominator truncates toward zero). -/
def pyTrunc (q : ℚ) : Int := q.num / (q.den : Int)

/-- Python's builtin `min` on two floats. -/
def pyMin (a b : ℚ) : ℚ := if a ≤ b then a else b

structure Bucket where
  tokens : ℚ
  lastRefill : ℚ
deriving DecidableEq, Repr

structure RLState where
  buckets : List (String × Bucket) := []
  threatScores : List (String × ℚ) := []
  blockedIps : List String := []
deriving DecidableEq, Repr

inductive RLOutcome
  | ipBlocked (ip : String)
  | denied (tokensRemaining : ℚ) (retryAfterSeconds : Int)
  | allowed (remaining : Int) (tokens : ℚ)
deriving DecidableEq, Repr

/-- Bucket initialization / refill (security_agent.py 157-173): a fresh
identifier gets a full bucket of `max_requests_per_hour` tokens; an
existing bucket refills at `capacity / 3600` tokens per second, capped at
capacity, and `last_refill` becomes `now` in both cases. -/
def refillBucket (cap : Nat) (st : RLState) (identifier : String) (now : ℚ) :
    Bucket :=
  match alistGet st.buckets identifier with
  | none => ⟨(cap : ℚ), now⟩
  | some b =>
    let elapsed := now - b.lastRefill
    let refillRate := (cap : ℚ) / 3600
    ⟨pyMin (cap : ℚ) (b.tokens + elapsed * refillRate), now⟩

/-- The bucket part of `SecurityAgent._check_rate_limit` (security_agent.py
155-205): after refill, `tokens < 1` denies the request with
`retry_after_seconds = int((1 - tokens) / (capacity / 3600))` and adds 0.05
to the identifier's threat score; otherwise one token is consumed and the
request is allowed with `remaining = int(tokens)`. -/
def checkRateLimitBucket (cap : Nat) (st : RLState) (identifier : String)
    (now : ℚ) : RLOutcome × RLState :=
  let bucket := refillBucket cap st identifier now
  if bucket.tokens < 1 then
    let newScore := (alistGet st.threatScores identifier).getD 0 + 1/20
    (.denied bucket.tokens (pyTrunc ((1 - bucket.tokens) / ((cap : ℚ) / 3600))),
      { st with
        buckets := alistSet st.buckets identifier bucket
        threatScores := alistSet st.threatScores identifier newScore })
  else
    (.allowed (pyTrunc (bucket.tokens - 1)) (bucket.tokens - 1),
      { st with buckets := alistSet st.buckets identifier ⟨bucket.tokens - 1, now⟩ })

/-- `SecurityAgent._check_rate_limit` (security_agent.py 136-205): the
identifier is `user_id or origin_ip or "anonymous"`; a blocked origin IP is
rejected before any bucket operation. -/
def checkRateLimit (cap : Nat) (st : RLState) (userId originIp : Option String)
    (now : ℚ) : RLOutcome × RLState :=
  let identifier := userId.getD (originIp.getD "anonymous")
  match originIp with
  | some ip =>
    if st.blockedIps.contains ip then (.ipBlocked ip, st)
    else checkRateLimitBucket cap st identifier now
  | none => checkRateLimitBucket cap st identifier now

/-- Successive `check_rate_limit` calls with the same context and no time
elapsing between them, returning the outcomes in call order. -/
def rateLimitTrace (cap : Nat) (userId originIp : Option String) (now : ℚ) :
    Nat → RLState → List RLOutcome × RLState
  | 0, st => ([], st)
  | n + 1, st =>
    let call := checkRateLimit cap st userId originIp now
    let rest := rateLimitTrace cap userId originIp now n call.2
    (call.1 :: rest.1, rest.2)

theorem alistGet_alistSet_self {α : Type} (l : List (String × α)) (k : String)
    (v : α) : alistGet (alistSet l k v) k = some v := by
  induction l with
  | nil => simp [alistGet, alistSet]
  | cons p ps ih =>
    by_cases h : p.1 = k
    · simp [alistGet, alistSet, h]
    · simp [alistGet, alistSet, h, ih]

/-- C7: the token-bucket rate limiter.
(1) With `max_requests_per_hour = 5`, a fresh identifier and six successive
calls with no time elapsing, the first five are allowed (4, 3, 2, 1, 0
tokens left) and the sixth is denied with `retry_after_seconds = 720` and
0.05 added to the identifier's threat score.
(2) A call made when the refilled bucket holds exactly 1.0 tokens is
allowed and leaves 0 tokens.
(3) The refilled bucket never exceeds its capacity. -/
theorem rate_limit_token_bucket :
    ((rateLimitTrace 5 (some "u") none 0 6 {}).1 =
      [.allowed 4 4, .allowed 3 3, .allowed 2 2, .allowed 1 1, .allowed 0 0,
        .denied 0 720] ∧
      (alistGet (rateLimitTrace 5 (some "u") none 0 6 {}).2.threatScores "u").getD 0 =
        1/20) ∧
    (∀ (cap : Nat) (st : RLState) (identifier : String) (now : ℚ),
      (refillBucket cap st identifier now).tokens = 1 →
      (checkRateLimitBucket cap st identifier now).1 = .allowed 0 0 ∧
      alistGet (checkRateLimitBucket cap st identifier now).2.buckets identifier =
        some ⟨0, now⟩) ∧
    (∀ (cap : Nat) (st : RLState) (identifier : String) (now : ℚ),
      (refillBucket cap st identifier now).tokens ≤ (cap : ℚ)) := by
  refine ⟨by norm_num [rateLimitTrace, checkRateLimit, checkRateLimitBucket,
    refillBucket, pyMin, alistGet, alistSet, pyTrunc], ?_, ?_⟩
  · intro cap st identifier now h1
    have hnlt : ¬ (refillBucket cap st identifier now).tokens < 1 := by
      rw [h1]
      norm_num
    have heq : checkRateLimitBucket cap st identifier now =
        (.allowed (pyTrunc ((refillBucket cap st identifier now).tokens - 1))
            ((refillBucket cap st identifier now).tokens - 1),
          { st with buckets := (alistSet st.buckets identifier
              ⟨(refillBucket cap st identifier now).tokens - 1, now⟩) }) := by
      simp [checkRateLimitBucket, hnlt]
    rw [h1] at heq
    rw [heq]
    constructor
    · norm_num [pyTrunc]
    · rw [alistGet_alistSet_self]
      norm_num
  · intro cap st identifier now
    unfold refillBucket
    cases halist : alistGet st.buckets identifier with
    | none => simp [halist]
    | some b =>
      simp only [halist]
      unfold pyMin
      split_ifs with h
      · exact le_refl _
      · exact le_of_lt (lt_of_not_le h)

/-- Witness for `rate_limit_token_bucket`: the boundary part applied with
capacity 1 and a fresh identifier, whose initialized bucket holds exactly
1.0 tokens. -/
theorem rate_limit_token_bucket_witness :
    (checkRateLimitBucket 1 {} "u" 0).1 = .allowed 0 0 := by
  have h := rate_limit_token_bucket.2.1 1 {} "u" 0 (by norm_num [refillBucket, alistGet])
  exact h.1

/-! ### C6 — distributed execution under a cost budget
(`Orchestrator._execute_distributed`, orchestrator.py 357-493)

The loop state carries the graph nodes, the loop-local `completed_nodes`,
`errors`, `total_credits_used`, the task queue's pending list and the
`task_results` dict filled by the bus subscription.  `arrivals iter` models
the result events the subscription handler appended since the previous
iteration's awaits; `slaNow iter` the value of `utcnow()` during result
processing.  The orchestrator never sets `started_at` in distributed mode,
so the SLA guard (`if node.status == RUNNING and node.started_at:`) is
modelled on the node's `startedAt` option.  Worker pops of the queue are
outside this function (the pending list only grows here, exactly as in the
loop body, which only pushes).  `fuel` bounds the number of iterations —
the loop itself may spin forever, so the model returns `none` when fuel
runs out. -/

structure DistState where
  nodes : List (String × GNode)
  completed : List String
  errors : List (String × String)
  creditsUsed : ℚ
  queued : List String
  taskResults : List (String × Except String Unit)
deriving Repr

/-- Handling of one received `task_results` item that passed the
`node_id in completed_nodes` skip and the SLA guard (orchestrator.py
435-442): failures mark the node FAILED and record the error; successes
write the output, mark SUCCESS and add to `completed_nodes`. -/
def processResultOne (st : DistState) (nodeId : String)
    (result : Except String Unit) : DistState :=
  match result with
  | .error e =>
    { st with
      nodes := setStatus st.nodes nodeId .failed
      errors := st.errors ++ [(nodeId, e)] }
  | .ok _ =>
    { st with
      nodes := setStatus st.nodes nodeId .success
      completed := st.completed ++ [nodeId] }

/-- The result-processing pass (orchestrator.py 418-446): iterate the
received results in insertion order; skip ids already completed; fail a
RUNNING node with a set `started_at` whose SLA elapsed
(`timeout_seconds or 60`); otherwise apply the success/failure handling. -/
def processResults (now : ℚ) (items : List (String × Except String Unit))
    (st : DistState) : DistState :=
  items.foldl
    (fun st item =>
      if st.completed.contains item.1 then st
      else
        match lookupNode st.nodes item.1 with
        | none => st
        | some n =>
          match n.startedAt with
          | some t0 =>
            let timeout := if n.timeoutSeconds = 0 then 60 else n.timeoutSeconds
            if n.status = .running ∧ timeout < now - t0 then
              { st with
                nodes := setStatus st.nodes item.1 .failed
                errors := st.errors ++ [(item.1, "SLA Timeout")] }
            else processResultOne st item.1 item.2
          | none => processResultOne st item.1 item.2)
    st

/-- The dispatch pass over the ready set (orchestrator.py 458-469): each
ready node not already RUNNING costs one credit, is marked RUNNING and is
pushed onto the task queue. -/
def dispatchReady (ready : List (String × GNode)) (st : DistState) : DistState :=
  ready.foldl
    (fun st p =>
      match lookupNode st.nodes p.1 with
      | some n =>
        if n.status ≠ .running then
          { st with
            creditsUsed := st.creditsUsed + 1
            nodes := setStatus st.nodes p.1 .running
            queued := st.queued ++ [p.1] }
        else st
      | none => st)
    st

/-- The `while True` loop of `_execute_distributed` (orchestrator.py
390-469), one constructor branch per `break`/`continue` of the source:
budget check, ready-set computation, completion/stuck checks, result
processing, backpressure, dispatch. -/
def distLoop (maxCredits : ℚ) (maxQueueSize : Nat)
    (arrivals : Nat → List (String × Except String Unit)) (slaNow : Nat → ℚ) :
    Nat → Nat → DistState → Option DistState
  | 0, _, _ => none
  | fuel + 1, iter, st =>
    let st := { st with taskResults := st.taskResults ++ arrivals iter }
    if maxCredits ≤ st.creditsUsed then
      some { st with errors := st.errors ++ [("GLOBAL", "Cost budget exceeded")] }
    else
      let ready := getReadyNodes st.nodes st.completed
      if ready.isEmpty then
        if st.completed.length = st.nodes.length then some st
        else
          let pending := st.nodes.filter (fun p => p.2.status == TaskStatus.pending)
          let running := st.nodes.filter (fun p => p.2.status == TaskStatus.running)
          if running.isEmpty && !pending.isEmpty then some st
          else if running.isEmpty && pending.isEmpty then some st
          else
            distLoop maxCredits maxQueueSize arrivals slaNow fuel (iter + 1)
              (processResults (slaNow iter) st.taskResults st)
      else
        if maxQueueSize < st.queued.length then
          distLoop maxCredits maxQueueSize arrivals slaNow fuel (iter + 1) st
        else
          distLoop maxCredits maxQueueSize arrivals slaNow fuel (iter + 1)
            (dispatchReady ready st)

structure DistResult where
  status : String
  completedNodes : List String
  errors : List (String × String)
  nodes : List (String × GNode)
deriving Repr

/-- Final status computation (orchestrator.py 476-477): `success` if every
node is SUCCESS, else `partial_failure` if `completed_nodes` is non-empty,
else `failed`. -/
def distFinalize (st : DistState) : DistResult :=
  let allSuccess := st.nodes.all (fun p => p.2.status == TaskStatus.success)
  let status :=
    if allSuccess then "success"
    else if !st.completed.isEmpty then "partial_failure" else "failed"
  ⟨status, st.completed, st.errors, st.nodes⟩

def executeDistributed (maxCredits : ℚ) (maxQueueSize : Nat)
    (arrivals : Nat → List (String × Except String Unit)) (slaNow : Nat → ℚ)
    (fuel : Nat) (nodes : List (String × GNode)) : Option DistResult :=
  (distLoop maxCredits maxQueueSize arrivals slaNow fuel 0
    ⟨nodes, [], [], 0, [], []⟩).map distFinalize

/-- The two-node graph of the C6 scenario: `B` depends on `A`. -/
def c6Nodes : List (String × GNode) :=
  [("A", ⟨[], .pending, 0, 300, none⟩), ("B", ⟨["A"], .pending, 0, 300, none⟩)]

set_option maxHeartbeats 1600000 in
/-- C6 counterexample: with `max_credits = 1.0` the claim asserts the
returned status is `partial_failure`; the loop charges the credit at
dispatch and breaks at the NEXT iteration's budget check before consuming
node A's result event, so `completed_nodes` stays empty and the final
status is `failed`. -/
theorem budget_exceeded_partial_failure_counterexample :
    ¬ ((executeDistributed 1 100 (fun _ => []) (fun _ => 0) 2 c6Nodes).map
        DistResult.status = some "partial_failure") := by
  norm_num +decide [executeDistributed, distLoop, getReadyNodes, sortByPriorityDesc,
    insertDesc, dispatchReady, lookupNode, setStatus, distFinalize, c6Nodes]

set_option maxHeartbeats 1600000 in
/-- C6 (amended): in DISTRIBUTED mode with `max_credits = 1.0` and the
two-node graph `A ← B`, node A is dispatched (1 credit charged at
dispatch) and node B is never dispatched; the loop terminates at the next
budget check — before consuming A's result — so A is left RUNNING, B is
left PENDING, and the returned result has status `"failed"` (not
`partial_failure`: `completed_nodes` is empty) with exactly one recorded
error `("GLOBAL", "Cost budget exceeded")`, for every arrival schedule and
any fuel of at least 2 iterations. -/
theorem budget_exceeded_behavior
    (arrivals : Nat → List (String × Except String Unit)) (slaNow : Nat → ℚ)
    (fuel : Nat) (hfuel : 2 ≤ fuel) :
    ∃ res : DistResult,
      executeDistributed 1 100 arrivals slaNow fuel c6Nodes = some res ∧
      res.status = "failed" ∧
      res.errors = [("GLOBAL", "Cost budget exceeded")] ∧
      res.completedNodes = [] ∧
      lookupNode res.nodes "A" = some ⟨[], .running, 0, 300, none⟩ ∧
      lookupNode res.nodes "B" = some ⟨["A"], .pending, 0, 300, none⟩ := by
  obtain ⟨f, rfl⟩ : ∃ f, fuel = f + 2 := ⟨fuel - 2, by omega⟩
  have heval : executeDistributed 1 100 arrivals slaNow (f + 2) c6Nodes =
      some ⟨"failed", [], [("GLOBAL", "Cost budget exceeded")],
        [("A", ⟨[], .running, 0, 300, none⟩), ("B", ⟨["A"], .pending, 0, 300, none⟩)]⟩ := by
    norm_num +decide [executeDistributed, distLoop, getReadyNodes, sortByPriorityDesc,
      insertDesc, dispatchReady, lookupNode, setStatus, distFinalize, c6Nodes]
  refine ⟨_, heval, rfl, rfl, rfl, ?_, ?_⟩ <;> norm_num +decide [lookupNode]

/-- Witness for `budget_exceeded_behavior` at the empty arrival schedule
and fuel 2. -/
theorem budget_exceeded_behavior_witness :
    ∃ res : DistResult,
      executeDistributed 1 100 (fun _ => []) (fun _ => 0) 2 c6Nodes = some res ∧
      res.status = "failed" ∧
      res.errors = [("GLOBAL", "Cost budget exceeded")] ∧
      res.completedNodes = [] ∧
      lookupNode res.nodes "A" = some ⟨[], .running, 0, 300, none⟩ ∧
      lookupNode res.nodes "B" = some ⟨["A"], .pending, 0, 300, none⟩ :=
  budget_exceeded_behavior (fun _ => []) (fun _ => 0) 2 (by norm_num)

/-! ### C9 — custom-rule expression evaluation
(`ValidationAgent._validate_custom`, validation_agent.py 335-383)

The source evaluates the rule text with Python's builtin `eval`, passing
globals that bind only `__builtins__` to an empty dict and locals binding
exactly `output`, `task`, `len`, `str`, `int`, `float` (lines 353-364).
`PyExpr`/`evalExpr` embed the fragment of Python expression evaluation
reachable through that call: name resolution (locals, then the globals
entry `__builtins__`, else `NameError`), attribute access — which Python's
`eval` does NOT restrict: the real `dict` methods of `output` resolve, and
calling them mutates the caller-visible `node.output_data` — subscripting,
`==` comparison and calls of the exposed builtins.  The state threaded
through evaluation is the contents of the `output` dict; mutations made
before an exception persist, as in Python.  Constructs whose CPython
behaviour the fragment does not reproduce (e.g. `str` of a container,
`keys()` views) evaluate to the distinguished error "ModelIncomplete" and
are never used in the theorems below. -/

inductive PyVal
  | vNone
  | vBool (b : Bool)
  | vInt (n : Int)
  | vFloat (q : ℚ)
  | vStr (s : String)
  | vDict (entries : List (String × PyVal))
  | vOutputRef
  | vTask
  | vBuiltin (b : String)
  | vMethod (m : String)

inductive PyExpr
  | intLit (n : Int)
  | strLit (s : String)
  | name (s : String)
  | attr (e : PyExpr) (field : String)
  | subscript (e : PyExpr) (key : PyExpr)
  | compareEq (a b : PyExpr)
  | call0 (f : PyExpr)
  | call1 (f : PyExpr) (arg : PyExpr)
deriving DecidableEq

def alistRemove {α : Type} : List (String × α) → String → List (String × α)
  | [], _ => []
  | p :: ps, k => if p.1 = k then ps else p :: alistRemove ps k

/-- Python `str(v)` on the scalar values of the fragment. -/
def pyStr : PyVal → Except String String
  | .vInt n => .ok (toString n)
  | .vStr s => .ok s
  | .vBool true => .ok "True"
  | .vBool false => .ok "False"
  | .vNone => .ok "None"
  | _ => .error "ModelIncomplete"

/-- Python `int(v)`; `int` of a string is modelled by `String.toInt?`. -/
def pyIntConv : PyVal → Except String Int
  | .vInt n => .ok n
  | .vBool b => .ok (if b then 1 else 0)
  | .vFloat q => .ok (pyTrunc q)
  | .vStr s =>
    match s.toInt? with
    | some n => .ok n
    | none => .error "ValueError"
  | _ => .error "TypeError"

/-- Python `float(v)` on the numeric values of the fragment. -/
def pyFloatConv : PyVal → Except String ℚ
  | .vInt n => .ok (n : ℚ)
  | .vFloat q => .ok q
  | .vBool b => .ok (if b then 1 else 0)
  | _ => .error "ModelIncomplete"

/-- Python `==` on the fragment's values (note `1 == True` is `True` in
Python; values of different types otherwise compare unequal; `output` is
identical to itself). -/
def pyEq : PyVal → PyVal → Except String Bool
  | .vInt a, .vInt b => .ok (a == b)
  | .vStr a, .vStr b => .ok (a == b)
  | .vBool a, .vBool b => .ok (a == b)
  | .vBool a, .vInt b => .ok ((if a then (1 : Int) else 0) == b)
  | .vInt a, .vBool b => .ok (a == (if b then (1 : Int) else 0))
  | .vFloat a, .vFloat b => .ok (a == b)
  | .vInt a, .vFloat b => .ok ((a : ℚ) == b)
  | .vFloat a, .vInt b => .ok (a == (b : ℚ))
  | .vNone, .vNone => .ok true
  | .vOutputRef, .vOutputRef => .ok true
  | .vDict _, _ => .error "ModelIncomplete"
  | _, .vDict _ => .error "ModelIncomplete"
  | _, _ => .ok false

/-- The `dict` methods of `output` that resolve under attribute access. -/
def outputMethodNames : List String :=
  ["clear", "get", "pop", "update", "keys", "values", "items"]

def evalExpr (taskNodeId : String) :
    PyExpr → List (String × PyVal) → Except String PyVal × List (String × PyVal)
  | .intLit n, st => (.ok (.vInt n), st)
  | .strLit s, st => (.ok (.vStr s), st)
  | .name s, st =>
    if s = "output" then (.ok .vOutputRef, st)
    else if s = "task" then (.ok .vTask, st)
    else if s = "len" ∨ s = "str" ∨ s = "int" ∨ s = "float" then
      (.ok (.vBuiltin s), st)
    else if s = "__builtins__" then (.ok (.vDict []), st)
    else (.error "NameError", st)
  | .attr e f, st =>
    match evalExpr taskNodeId e st with
    | (.error err, st2) => (.error err, st2)
    | (.ok v, st2) =>
      match v with
      | .vOutputRef =>
        if outputMethodNames.contains f then (.ok (.vMethod f), st2)
        else (.error "AttributeError", st2)
      | .vTask =>
        if f = "node_id" then (.ok (.vStr taskNodeId), st2)
        else (.error "ModelIncomplete", st2)
      | _ => (.error "AttributeError", st2)
  | .subscript e k, st =>
    match evalExpr taskNodeId e st with
    | (.error err, st2) => (.error err, st2)
    | (.ok v, st2) =>
      match evalExpr taskNodeId k st2 with
      | (.error err, st3) => (.error err, st3)
      | (.ok kv, st3) =>
        match v, kv with
        | .vOutputRef, .vStr key =>
          match alistGet st3 key with
          | some w => (.ok w, st3)
          | none => (.error "KeyError", st3)
        | .vDict d, .vStr key =>
          match alistGet d key with
          | some w => (.ok w, st3)
          | none => (.error "KeyError", st3)
        | .vOutputRef, _ => (.error "KeyError", st3)
        | .vDict _, _ => (.error "KeyError", st3)
        | _, _ => (.error "TypeError", st3)
  | .compareEq a b, st =>
    match evalExpr taskNodeId a st with
    | (.error err, st2) => (.error err, st2)
    | (.ok va, st2) =>
      match evalExpr taskNodeId b st2 with
      | (.error err, st3) => (.error err, st3)
      | (.ok vb, st3) =>
        match pyEq va vb with
        | .ok r => (.ok (.vBool r), st3)
        | .error err => (.error err, st3)
  | .call0 f, st =>
    match evalExpr taskNodeId f st with
    | (.error err, st2) => (.error err, st2)
    | (.ok v, st2) =>
      match v with
      | .vMethod m =>
        if m = "clear" then (.ok .vNone, [])
        else if m = "get" ∨ m = "pop" ∨ m = "update" then (.error "TypeError", st2)
        else (.error "ModelIncomplete", st2)
      | .vBuiltin b =>
        if b = "str" then (.ok (.vStr ""), st2)
        else if b = "int" then (.ok (.vInt 0), st2)
        else if b = "float" then (.ok (.vFloat 0), st2)
        else (.error "TypeError", st2)
      | _ => (.error "TypeError", st2)
  | .call1 f a, st =>
    match evalExpr taskNodeId f st with
    | (.error err, st2) => (.error err, st2)
    | (.ok v, st2) =>
      match evalExpr taskNodeId a st2 with
      | (.error err, st3) => (.error err, st3)
      | (.ok av, st3) =>
        match v with
        | .vMethod m =>
          if m = "get" then
            match av with
            | .vStr key => ((alistGet st3 key).elim (.ok .vNone) .ok, st3)
            | _ => (.ok .vNone, st3)
          else if m = "pop" then
            match av with
            | .vStr key =>
              match alistGet st3 key with
              | some w => (.ok w, alistRemove st3 key)
              | none => (.error "KeyError", st3)
            | _ => (.error "KeyError", st3)
          else if m = "update" then
            match av with
            | .vDict d => (.ok .vNone, d.foldl (fun acc p => alistSet acc p.1 p.2) st3)
            | _ => (.error "TypeError", st3)
          else (.error "TypeError", st3)
        | .vBuiltin b =>
          if b = "len" then
            match av with
            | .vOutputRef => (.ok (.vInt st3.length), st3)
            | .vStr s => (.ok (.vInt s.length), st3)
            | .vDict d => (.ok (.vInt d.length), st3)
            | _ => (.error "TypeError", st3)
          else if b = "str" then
            match pyStr av with
            | .ok s => (.ok (.vStr s), st3)
            | .error err => (.error err, st3)
          else if b = "int" then
            match pyIntConv av with
            | .ok n => (.ok (.vInt n), st3)
            | .error err => (.error err, st3)
          else if b = "float" then
            match pyFloatConv av with
            | .ok q => (.ok (.vFloat q), st3)
            | .error err => (.error err, st3)
          else (.error "TypeError", st3)
        | _ => (.error "TypeError", st3)

structure CustomValidationResult where
  valid : Bool
  message : String
  newOutput : List (String × PyVal)

/-- `ValidationAgent._validate_custom` (validation_agent.py 335-383) over
the modelled fragment: evaluate the expression; a `bool` result is the
verdict (line 366); a non-bool result is invalid with "Expression must
return boolean" (lines 373-376); an exception is caught and invalid
(lines 378-383).  Any mutation performed during evaluation persists on
`node.output_data`. -/
def validateCustom (taskNodeId : String) (expr : PyExpr)
    (output : List (String × PyVal)) : CustomValidationResult :=
  match evalExpr taskNodeId expr output with
  | (.ok (.vBool b), st2) => ⟨b, "Expression evaluated", st2⟩
  | (.ok _, st2) => ⟨false, "Expression must return boolean", st2⟩
  | (.error e, st2) => ⟨false, "Expression evaluation error: " ++ e, st2⟩

/-- C9 counterexample: the claim asserts evaluation has no side effects and
no attribute lookup beyond mapping/index access; but `eval` resolves the
real `dict` attribute `clear` on `output`, and evaluating the expression
`output.clear()` empties `node.output_data` (here: from one entry to
none) even though the rule is then merely reported as non-boolean. -/
theorem custom_eval_side_effect_counterexample :
    ¬ ((validateCustom "n1" (.call0 (.attr (.name "output") "clear"))
        [("k", .vInt 1)]).newOutput.length = 1) := by
  decide

/-- C9 (amended): the evaluation environment exposes exactly the names
`output`, `task`, `len`, `str`, `int`, `float` (plus the empty
`__builtins__` mapping from the globals) — any other name raises
`NameError` — and a result is accepted as valid only when the expression
evaluates to the boolean `True`; however attribute lookup on the exposed
objects is NOT restricted and method calls can mutate `output`. -/
theorem custom_eval_names_and_bool_only (taskNodeId : String) :
    (∀ (s : String) (st : List (String × PyVal)),
      s ∉ ["output", "task", "len", "str", "int", "float", "__builtins__"] →
      evalExpr taskNodeId (.name s) st = (.error "NameError", st)) ∧
    (∀ (expr : PyExpr) (st : List (String × PyVal)),
      (validateCustom taskNodeId expr st).valid = true →
      ∃ st2, evalExpr taskNodeId expr st = (.ok (.vBool true), st2) ∧
        (validateCustom taskNodeId expr st).newOutput = st2) := by
  constructor
  · intro s st hs
    simp only [List.mem_cons, List.not_mem_nil, or_false, not_or] at hs
    obtain ⟨h1, h2, h3, h4, h5, h6, h7⟩ := hs
    simp [evalExpr, h1, h2, h3, h4, h5, h6, h7]
  · intro expr st
    unfold validateCustom
    match hev : evalExpr taskNodeId expr st with
    | (.ok (.vBool b), st2) =>
      intro hvalid
      dsimp only at hvalid ⊢
      subst hvalid
      exact ⟨st2, rfl, rfl⟩
    | (.ok .vNone, st2) => intro hvalid; simp at hvalid
    | (.ok (.vInt _), st2) => intro hvalid; simp at hvalid
    | (.ok (.vFloat _), st2) => intro hvalid; simp at hvalid
    | (.ok (.vStr _), st2) => intro hvalid; simp at hvalid
    | (.ok (.vDict _), st2) => intro hvalid; simp at hvalid
    | (.ok .vOutputRef, st2) => intro hvalid; simp at hvalid
    | (.ok .vTask, st2) => intro hvalid; simp at hvalid
    | (.ok (.vBuiltin _), st2) => intro hvalid; simp at hvalid
    | (.ok (.vMethod _), st2) => intro hvalid; simp at hvalid
    | (.error _, st2) => intro hvalid; simp at hvalid

/-- Witness for `custom_eval_names_and_bool_only`: the name `getattr`
raises `NameError`, and the boolean rule `1 == 1` is accepted as valid. -/
theorem custom_eval_names_and_bool_only_witness :
    evalExpr "n1" (.name "getattr") [] = (.error "NameError", []) ∧
    ∃ st2, evalExpr "n1" (.compareEq (.intLit 1) (.intLit 1)) [] =
        (.ok (.vBool true), st2) ∧
      (validateCustom "n1" (.compareEq (.intLit 1) (.intLit 1)) []).newOutput = st2 := by
  constructor
  · exact (custom_eval_names_and_bool_only "n1").1 "getattr" [] (by decide)
  · exact (custom_eval_names_and_bool_only "n1").2
      (.compareEq (.intLit 1) (.intLit 1)) [] (by decide)

end Goatclaw
